import Mathlib

/-!
A shallow embedding of the semantic-resolution core found in
`frontend/lib/resolution/resolution-queries.cpp` of the Chapel front end,
together with proofs about the behaviour of its field-resolution policy
selection, forwarding-cycle detection, numeric type construction,
signature instantiation, candidate gathering/filtering, and
method-call resolution driver.

Interned C++ objects are modelled by small Lean structures with decidable
equality; pointer equality of interned objects corresponds to structural
equality of the models.  External collaborators of the core (the `canPass`
oracle, the scope lookup, the `Resolver` traversals) are modelled as
explicit environment records of functions, so that every theorem below is
quantified over their behaviour and every witness instantiates them with
concrete computable values.
-/

namespace ChapelRes

/-- The `DefaultsPolicy` enumeration used by field resolution. -/
inductive DefaultsPolicy
  | ignoreDefaults
  | useDefaultsOtherFields
  | useDefaults
deriving DecidableEq, Repr

/-- A composite type, abstractly: just its interned identity. -/
structure CompositeTy where
  ctId : Nat
deriving DecidableEq, Repr

/-- The memoized query engine stores one `ResolvedFields` object per
`(ct, defaultsPolicy)` key of `fieldsForTypeDeclQuery`; the reference
identity of the `const ResolvedFields&` returned for a key is the key
itself (two distinct keys own two distinct stored objects within a
revision). -/
structure ResolvedFieldsRef where
  ct : CompositeTy
  policy : DefaultsPolicy
deriving DecidableEq, Repr

/-- The memoized `fieldsForTypeDeclQuery`: returns the stored object owned
by its `(ct, defaultsPolicy)` key. -/
def fieldsForTypeDeclQuery (ct : CompositeTy) (p : DefaultsPolicy) : ResolvedFieldsRef :=
  ⟨ct, p⟩

/-- Environment for the field-policy model: `isGenericWithDefaults ct p` is
the value of `ResolvedFields::isGenericWithDefaults()` on the result stored
for key `(ct, p)` (computed by `finalizeFields`, outside this model). -/
structure FieldsEnv where
  isGenericWithDefaults : CompositeTy → DefaultsPolicy → Bool

/-- Model of the `fieldsForTypeDecl` wrapper: for `IGNORE_DEFAULTS`
forward directly; otherwise first compute with
`USE_DEFAULTS_OTHER_FIELDS`; when `USE_DEFAULTS` was requested, re-query
with `USE_DEFAULTS` when the type is generic with defaults and with
`IGNORE_DEFAULTS` otherwise; for `USE_DEFAULTS_OTHER_FIELDS` return the
first result. -/
def fieldsForTypeDecl (env : FieldsEnv) (ct : CompositeTy) (p : DefaultsPolicy) :
    ResolvedFieldsRef :=
  if p = DefaultsPolicy.ignoreDefaults then
    fieldsForTypeDeclQuery ct DefaultsPolicy.ignoreDefaults
  else
    let f := fieldsForTypeDeclQuery ct DefaultsPolicy.useDefaultsOtherFields
    if p = DefaultsPolicy.useDefaults then
      let finalDefaultsPolicy :=
        if env.isGenericWithDefaults ct DefaultsPolicy.useDefaultsOtherFields then
          DefaultsPolicy.useDefaults
        else
          DefaultsPolicy.ignoreDefaults
      fieldsForTypeDeclQuery ct finalDefaultsPolicy
    else f

/-- A concrete fields environment in which no composite is generic with
defaults. -/
def c2Env : FieldsEnv :=
  ⟨fun _ _ => false⟩

/-- A concrete composite type. -/
def c2Ct : CompositeTy :=
  ⟨0⟩

/-- Names recognized by `getNumericType` (other call names fall through). -/
inductive NumName
  | intN
  | uintN
  | boolN
  | realN
  | imagN
  | complexN
  | otherN (code : Nat)
deriving DecidableEq, Repr

/-- Types as needed by the numeric-type-construction model: primitive
numeric types with a width, the generic bound types, `AnyType`,
`UnknownType`, `ErroneousType`, and an opaque remainder. -/
inductive Ty
  | primInt (w : Int)
  | primUint (w : Int)
  | primBool
  | primReal (w : Int)
  | primImag (w : Int)
  | primComplex (w : Int)
  | anyTy
  | anyIntTy
  | anyUintTy
  | anyRealTy
  | anyImagTy
  | anyComplexTy
  | unknownTy
  | erroneousTy
  | otherTy (code : Nat)
deriving DecidableEq, Repr

/-- Whether a type is `AnyType` (`Type::isAnyType`). -/
def Ty.isAnyType : Ty → Bool
  | Ty.anyTy => true
  | _ => false

/-- Whether a type is the signed-integer primitive (`Type::isIntType`). -/
def Ty.isIntType : Ty → Bool
  | Ty.primInt _ => true
  | _ => false

/-- Whether a type is `UnknownType`. -/
def Ty.isUnknownType : Ty → Bool
  | Ty.unknownTy => true
  | _ => false

/-- Whether a type is `ErroneousType`. -/
def Ty.isErroneousType : Ty → Bool
  | Ty.erroneousTy => true
  | _ => false

/-- Param values as needed by the numeric model (`IntParam` or other). -/
inductive ParamVal
  | intP (v : Int)
  | otherP (code : Nat)
deriving DecidableEq, Repr

/-- Whether a param is an `IntParam`. -/
def ParamVal.isIntParam : ParamVal → Bool
  | ParamVal.intP _ => true
  | _ => false

/-- Qualified-type kinds (`QualifiedType::Kind`). -/
inductive QKind
  | unknownK
  | varK
  | constVarK
  | refK
  | constRefK
  | refMaybeConstK
  | inK
  | constInK
  | outK
  | inoutK
  | typeK
  | paramK
  | functionK
  | moduleK
deriving DecidableEq, Repr

/-- A qualified type for the numeric model: kind, optional type pointer,
optional param pointer. -/
structure NQT where
  kind : QKind := QKind.unknownK
  ty : Option Ty := none
  pv : Option ParamVal := none
deriving DecidableEq, Repr

/-- Whether the qualified type has param kind (`QualifiedType::isParam`). -/
def NQT.isParam (q : NQT) : Bool :=
  q.kind == QKind.paramK

/-- The `CallInfo` data consumed by `getNumericType`. -/
structure NCall where
  name : NumName
  isMethodCall : Bool := false
  hasQuestionArg : Bool := false
  actuals : List NQT := []
deriving DecidableEq, Repr

/-- Modelled from the spec: `PrimitiveType::getWithNameAndWidth` lives in
the types library, outside the shown source.  Per the specification the
primitive type constructors `int(w)`, `uint(w)`, `real(w)`, `imag(w)`,
`complex(w)` accept a width in `[0, 128]` and yield the primitive type of
that name and width (`bool` likewise has primitive forms); other names
yield nothing. -/
def getWithNameAndWidth (name : NumName) (w : Int) : Option Ty :=
  match name with
  | NumName.intN => some (Ty.primInt w)
  | NumName.uintN => some (Ty.primUint w)
  | NumName.boolN => some Ty.primBool
  | NumName.realN => some (Ty.primReal w)
  | NumName.imagN => some (Ty.primImag w)
  | NumName.complexN => some (Ty.primComplex w)
  | NumName.otherN _ => none

/-- Whether `getNumericType` handles this call name at all. -/
def isNumericCtorName (n : NumName) : Bool :=
  n == NumName.intN || n == NumName.uintN || n == NumName.boolN ||
    n == NumName.realN || n == NumName.imagN || n == NumName.complexN

/-- The generic bound type produced for `int(?)` and friends; the `bool`
case is unreachable in the source (guarded by an assertion) and yields
nothing. -/
def genericBoundFor : NumName → Option Ty
  | NumName.intN => some Ty.anyIntTy
  | NumName.uintN => some Ty.anyUintTy
  | NumName.realN => some Ty.anyRealTy
  | NumName.imagN => some Ty.anyImagTy
  | NumName.complexN => some Ty.anyComplexTy
  | _ => none

/-- Model of `getNumericType`.  Returns the produced type (`none` models
the C++ `nullptr` fall-through) paired with the number of
"invalid numeric type construction" errors reported to the context. -/
def getNumericType (ci : NCall) : Option Ty × Nat :=
  if isNumericCtorName ci.name then
    -- there should be 0 or 1 actuals depending on whether `?` was used;
    -- a `?` argument forces the generic bound
    if ci.hasQuestionArg then
      if ci.actuals.length ≠ 0 then (some Ty.erroneousTy, 1)
      else (genericBoundFor ci.name, 0)
    else
      if ci.actuals.length ≠ 1 then (some Ty.erroneousTy, 1)
      else
        let qt : NQT := ci.actuals.headD {}
        let useGenericType : Bool :=
          (match qt.ty with
            | some t => t.isAnyType
            | none => false) ||
          (qt.isParam && qt.pv.isNone)
        if useGenericType then
          (genericBoundFor ci.name, 0)
        else
          match qt.ty with
          | none => (some Ty.unknownTy, 0)
          | some t =>
            if t.isUnknownType || t.isErroneousType then
              (some t, 0)
            else
              match qt.pv with
              | none => (some Ty.unknownTy, 0)
              | some p =>
                if !(t.isIntType && p.isIntParam) then
                  (some Ty.erroneousTy, 1)
                else
                  match p with
                  | ParamVal.intP value =>
                    let ret : Option Ty :=
                      if 0 ≤ value ∧ value ≤ 128 then
                        getWithNameAndWidth ci.name value
                      else
                        none
                    (match ret with
                      | none => (some Ty.erroneousTy, 1)
                      | some r => (some r, 0))
                  | ParamVal.otherP _ => (some Ty.erroneousTy, 1)
  else
    (none, 0)

/-- Model of the numeric part of `resolveBuiltinTypeCtor`: none of the
special type function calls are methods, so a method call falls through
before `getNumericType` is consulted. -/
def numericTypeViaSpecialCall (ci : NCall) : Option Ty × Nat :=
  if ci.isMethodCall then (none, 0) else getNumericType ci

/-- A concrete call `int(x)` where `x` is a run-time `var` of 64-bit int
type: one actual of kind `var`, type `int(64)`, no param value. -/
def c8Call : NCall :=
  { name := NumName.intN,
    isMethodCall := false,
    hasQuestionArg := false,
    actuals := [{ kind := QKind.varK, ty := some (Ty.primInt 64), pv := none }] }

/-- A concrete call `int(32)` with a `param int` actual of value 32. -/
def c8CallInt32 : NCall :=
  { name := NumName.intN,
    isMethodCall := false,
    hasQuestionArg := false,
    actuals := [{ kind := QKind.paramK, ty := some (Ty.primInt 64),
                  pv := some (ParamVal.intP 32) }] }

/-- A forwarding graph over `n` composite types: whether each composite
uses forwarding (`typeUsesForwarding`), and the composite types reachable
from it through the `forwardingToType` entries of its resolved fields
(targets whose type is unknown or not composite are already dropped, as
the source skips them). -/
structure FwdGraph (n : Nat) where
  usesForwarding : Fin n → Bool
  forwards : Fin n → List (Fin n)

/-- Result of one `checkForwardingCycles` traversal: whether a cycle was
detected, the composite ids on which the "forwarding cycle detected"
diagnostic was reported, and the final visited set (the C++ code threads
the visited set by reference, so inserts persist across sibling calls). -/
structure DfsOut (n : Nat) where
  cycleFound : Bool
  errors : List (Fin n)
  visited : Finset (Fin n)
deriving DecidableEq

/-- One step of the loop over forwarding targets inside
`checkForwardingCycles`: once a cycle was found the walk has returned, so
remaining targets are skipped; otherwise the next target is followed from
the current visited set (the C++ code threads the set by reference) and
its reported errors accumulate. -/
def forwardStep {n : Nat} (rec : Finset (Fin n) → Fin n → Option (DfsOut n))
    (acc : Option (DfsOut n)) (c : Fin n) : Option (DfsOut n) :=
  match acc with
  | none => none
  | some o =>
    if o.cycleFound then
      some o
    else
      match rec o.visited c with
      | none => none
      | some o2 => some ⟨o2.cycleFound, o.errors ++ o2.errors, o2.visited⟩

/-- Fuel-indexed model of `checkForwardingCycles`: if the type uses
forwarding, revisiting it reports a cycle and stops; otherwise it is
inserted into the visited set and each forwarding target is followed in
order, aborting on the first detected cycle.  `none` models a traversal
nesting deeper than the given fuel; the termination theorem shows fuel
`n + 1` always suffices. -/
def checkForwardingCycles {n : Nat} (g : FwdGraph n) :
    Nat → Finset (Fin n) → Fin n → Option (DfsOut n)
  | 0, _, _ => none
  | fuel' + 1, visited, ct =>
    if g.usesForwarding ct then
      if ct ∈ visited then
        -- it was already in the visited set: report and stop
        some ⟨true, [ct], visited⟩
      else
        (g.forwards ct).foldl
          (forwardStep (fun v c => checkForwardingCycles g fuel' v c))
          (some ⟨false, [], insert ct visited⟩)
    else
      some ⟨false, [], visited⟩

/-- The two-record forwarding cycle of scenario S5:
`record A { forwarding b: B; } record B { forwarding a: A; }`. -/
def c4Graph : FwdGraph 2 :=
  { usesForwarding := fun _ => true,
    forwards := fun i => if i = 0 then [1] else [0] }

/-- Genericity classification (`Type::Genericity`). -/
inductive Genericity
  | concrete
  | generic
  | genericWithDefaults
  | maybeGeneric
deriving DecidableEq, Repr

/-- Where-clause results (`TypedFnSignature::WhereClauseResult`). -/
inductive WhereR
  | wNone
  | wTrue
  | wFalse
  | wTbd
deriving DecidableEq, Repr

/-- An abstract qualified type for the signature models: the intent kind,
the interned type pointer (`none` models a C++ null `type()`), the value
of the external `QualifiedType::isUnknown()` predicate, whether the type
pointer is non-null and the bool type, and the param value when the param
pointer is a bool param. -/
structure QT where
  kind : QKind := QKind.varK
  tyId : Option Nat := none
  unknownFlag : Bool := false
  tyIsBool : Bool := false
  paramB : Option Bool := none
deriving DecidableEq, Repr

/-- The default-constructed `QualifiedType`: unknown kind, null type. -/
def unknownQT : QT :=
  { kind := QKind.unknownK, tyId := none, unknownFlag := true }

/-- Result of the external `canPass` oracle. -/
structure CanPassResult where
  passes : Bool := true
  instantiates : Bool := false
  converts : Bool := false
  promotes : Bool := false
  reasonCode : Nat := 0
deriving DecidableEq, Repr

/-- Failure reasons carried by an `ApplicabilityResult`. -/
inductive FailReason
  | failFormalActualMismatch
  | failVarargMismatch
  | failWhereClause
  | failParenlessMismatch
  | failCandidateOther
  | failCannotPass (reasonCode : Nat)
deriving DecidableEq, Repr

/-- A `TypedFnSignature`, by its interned contents: the untyped signature
id, the formal decl ids and formal qualified types in order, the
where-clause result, the `needsInstantiation` flag, the signature this one
was instantiated from (if any), and untyped-signature properties consulted
by the resolution code. -/
structure Sig where
  sigId : Nat
  formalDeclIds : List Nat := []
  formalTypes : List QT := []
  whereResult : WhereR := WhereR.wNone
  needsInstantiation : Bool := false
  instantiatedFromId : Option Nat := none
  isCompilerGenerated : Bool := false
  isInitFn : Bool := false
  isMethod : Bool := false
  isFn : Bool := true
deriving DecidableEq, Repr

/-- An `ApplicabilityResult`: either an applicable (possibly instantiated)
signature, or a failure with its reason and the failing formal index when
one is known. -/
inductive ApplicabilityResult
  | success (candidate : Sig)
  | failure (idOrSigId : Nat) (reason : FailReason) (formalIdx : Option Nat)
deriving DecidableEq, Repr

/-- Whether an `ApplicabilityResult` is a success. -/
def ApplicabilityResult.isSuccess : ApplicabilityResult → Bool
  | ApplicabilityResult.success _ => true
  | ApplicabilityResult.failure _ _ _ => false

/-- One formal/actual pair of a `FormalActualMap`, in `byFormals` order. -/
structure FAEntry where
  formalIdx : Nat
  declId : Nat
  actual : QT
  isVarArgEntry : Bool := false
deriving DecidableEq, Repr

/-- Reserved call-name codes for the names the driver inspects. -/
def nameEmpty : Nat := 0

/-- Name code of `?`. -/
def nameQuestion : Nat := 1

/-- Name code of `owned`. -/
def nameOwned : Nat := 2

/-- Name code of `shared`. -/
def nameShared : Nat := 3

/-- Name code of `borrowed`. -/
def nameBorrowed : Nat := 4

/-- Name code of `unmanaged`. -/
def nameUnmanaged : Nat := 5

/-- Name code of `init`. -/
def nameInit : Nat := 6

/-- Name code of `init=`. -/
def nameInitEq : Nat := 7

/-- Whether a name code is `init` or `init=`. -/
def isInitName (c : Nat) : Bool :=
  c == nameInit || c == nameInitEq

/-- The `CallInfo` data consumed by candidate gathering and filtering.
For a method call the receiver is actual 0 and equals `calledType`. -/
structure CallInfo where
  nameCode : Nat := 100
  isMethodCall : Bool := false
  isOpCall : Bool := false
  isParenless : Bool := false
  hasQuestionArg : Bool := false
  calledType : QT := {}
  actuals : List QT := []
deriving DecidableEq, Repr

/-- A substitutions map, as an association list from formal decl id to the
substituted qualified type (insertion order follows the formals). -/
abbrev SubstMap : Type :=
  List (Nat × QT)

/-- Whether the substitutions map contains a formal decl id
(`substitutions->count(id)`). -/
def subsHas (s : SubstMap) (d : Nat) : Bool :=
  (List.any s fun p => p.1 == d)

/-- Helper loop of `anyFormalNeedsInstantiation`, indexed by the formal
position. -/
def anyFormalNeedsInstantiationGo (g : QT → Genericity) (declIds : List Nat)
    (subs : Option SubstMap) : Nat → List QT → Bool
  | _, [] => false
  | i, qt :: rest =>
    if qt.unknownFlag then
      true
    else
      let considerGenericity : Bool :=
        match subs with
        | none => true
        | some s => !(subsHas s (declIds.getD i 0))
      if considerGenericity && !(g qt == Genericity.concrete) then
        true
      else
        anyFormalNeedsInstantiationGo g declIds subs (i + 1) rest

/-- Model of `anyFormalNeedsInstantiation`: a formal needs instantiation
when its type is unknown, or when it received no substitution and its
genericity is not concrete; formals that carry a substitution skip the
genericity check. -/
def anyFormalNeedsInstantiation (g : QT → Genericity) (formalTs : List QT)
    (declIds : List Nat) (subs : Option SubstMap) : Bool :=
  anyFormalNeedsInstantiationGo g declIds subs 0 formalTs

/-- Model of the static `whereClauseResult` helper: given the qualified
type computed for the where clause (`none` when there is no clause) and
the `needsInstantiation` flag, produce the where result together with the
number of "where clause does not result in a param bool value" errors
reported. -/
def whereClauseResultM (whereQt : Option QT) (needsInstantiation : Bool) :
    WhereR × Nat :=
  match whereQt with
  | none => (WhereR.wNone, 0)
  | some qt =>
    if qt.tyIsBool && (qt.kind == QKind.paramK) && (qt.paramB == some true) then
      (WhereR.wTrue, 0)
    else if qt.tyIsBool && (qt.kind == QKind.paramK) && (qt.paramB == some false) then
      (WhereR.wFalse, 0)
    else if needsInstantiation then
      (WhereR.wTbd, 0)
    else
      (WhereR.wTbd, 1)

/-- Environment of external collaborators and `Resolver` traversals used
by the instantiation engine and the filters.  The re-resolution of a
formal's type expression under the visitor is abstracted as a function of
the formal decl id and the substitutions recorded so far (the only state
the source threads into it). -/
structure InstEnv where
  canPass : QT → QT → CanPassResult
  getInstantiationType : QT → QT → QT
  resolveIntent : QT → QKind
  genericity : QT → Genericity
  varArgElemType : QT → QT
  formalTypeFor : Nat → SubstMap → QT
  qFormalTypeFor : Nat → SubstMap → QT
  varArgTupleTypeFor : SubstMap → QT
  varArgTupleOf : List QT → QT
  varArgFormalDeclId : Nat
  finalFormalTypes : SubstMap → List QT
  adFormalTypes : SubstMap → List QT
  whereEval : SubstMap → Option QT
  varArgCountOk : SubstMap → Bool
  sigVarArgKnownSize : Bool
  faMap : Nat → CallInfo → Option (List FAEntry)
  initFinal : Sig → Sig

/-- An instantiation failure: reason plus failing formal index. -/
structure InstFail where
  reason : FailReason
  formalIdx : Option Nat
deriving DecidableEq, Repr

/-- The loop state of `instantiateSignature`. -/
structure InstState where
  substitutions : SubstMap := []
  formalsInstantiated : List Nat := []
  formalIdx : Nat := 0
  instantiateVarArgs : Bool := false
  varargsTypes : List QT := []
  varArgIdx : Option Nat := none
  varArgType : Option QT := none
deriving DecidableEq, Repr

/-- The decision taken for one formal/actual pair of
`instantiateSignature`: either a failure, or whether to add a substitution
together with the type to use.  This models lines computing `addSub` and
`useType`: a "use the default" actual records the actual as a hint unless
the call had a `?` argument; otherwise `canPass` decides, and when the
pass instantiates through a conversion or promotion the instantiation type
is computed and re-checked against the actual under the resolved
intent. -/
def entryDecision (env : InstEnv) (call : CallInfo) (e : FAEntry)
    (formalType : QT) : Except InstFail (Bool × QT) :=
  if e.actual.kind == QKind.unknownK && e.actual.tyId.isNone then
    if call.hasQuestionArg then
      Except.ok (false, unknownQT)
    else
      Except.ok (true, e.actual)
  else
    let got := env.canPass e.actual formalType
    if !got.passes then
      Except.error ⟨FailReason.failCannotPass got.reasonCode, some e.formalIdx⟩
    else if got.instantiates then
      if !got.converts && !got.promotes then
        Except.ok (true, e.actual)
      else
        let useType := env.getInstantiationType e.actual formalType
        let k := env.resolveIntent useType
        let useTypeConcrete : QT := { useType with kind := k }
        let got2 := env.canPass e.actual useTypeConcrete
        if !got2.passes then
          Except.error ⟨FailReason.failCannotPass got2.reasonCode, some e.formalIdx⟩
        else
          Except.ok (true, useType)
    else
      Except.ok (false, unknownQT)

/-- The vararg tuple type, recomputed at the first vararg entry and then
reused (`varArgType` in the source). -/
def varArgTypeUpd (env : InstEnv) (st : InstState) (e : FAEntry) : Option QT :=
  if e.isVarArgEntry then
    match st.varArgType with
    | none => some (env.varArgTupleTypeFor st.substitutions)
    | some vt => some vt
  else
    st.varArgType

/-- The formal type against which `canPass` is consulted for one pair: the
vararg tuple's star type for a vararg entry, else the formal's type
re-resolved under the substitutions so far. -/
def formalTypeOf (env : InstEnv) (st : InstState) (e : FAEntry) : QT :=
  if e.isVarArgEntry then
    env.varArgElemType ((varArgTypeUpd env st e).getD unknownQT)
  else
    env.formalTypeFor e.declId st.substitutions

/-- Processing of one formal/actual pair of `instantiateSignature`: after
the decision, a vararg entry accumulates its element type (with the
intent re-resolved) while a regular entry records the substitution and
advances the formal index; then the formal is re-traversed and the
type-query-aware formal type is checked against the computed type with
`canPass`. -/
def processEntry (env : InstEnv) (call : CallInfo) (st : InstState)
    (e : FAEntry) : Except InstFail InstState :=
  let varArgTypeNew : Option QT := varArgTypeUpd env st e
  let formalType : QT := formalTypeOf env st e
  match entryDecision env call e formalType with
  | Except.error f => Except.error f
  | Except.ok (addSub, useType0) =>
    if e.isVarArgEntry then
      let useType1 := if !addSub then formalType else useType0
      let tempQT : QT := { useType1 with kind := formalType.kind, paramB := none }
      let newKind := env.resolveIntent tempQT
      let pb := if formalType.kind == QKind.paramK then useType1.paramB else none
      let useType2 : QT := { useType1 with kind := newKind, paramB := pb }
      let st1 : InstState :=
        { st with
          instantiateVarArgs := st.instantiateVarArgs || addSub,
          varargsTypes := st.varargsTypes ++ [useType2],
          varArgIdx := if st.varArgIdx.isNone then some st.formalIdx else st.varArgIdx,
          formalIdx := if st.varArgIdx.isNone then st.formalIdx + 1 else st.formalIdx,
          varArgType := varArgTypeNew }
      let qFormalType := env.varArgElemType (env.qFormalTypeFor e.declId st1.substitutions)
      let checkType := if !useType2.unknownFlag then useType2 else formalType
      let passResult := env.canPass checkType qFormalType
      if !passResult.passes then
        Except.error ⟨FailReason.failCannotPass passResult.reasonCode, some e.formalIdx⟩
      else
        Except.ok st1
    else
      let st1 : InstState :=
        { st with
          substitutions :=
            if addSub then st.substitutions ++ [(e.declId, useType0)]
            else st.substitutions,
          formalsInstantiated :=
            if addSub then st.formalsInstantiated ++ [st.formalIdx]
            else st.formalsInstantiated,
          formalIdx := st.formalIdx + 1,
          varArgType := varArgTypeNew }
      let formalType2 := env.formalTypeFor e.declId st1.substitutions
      let qFormalType := env.qFormalTypeFor e.declId st1.substitutions
      let checkType := if !useType0.unknownFlag then useType0 else formalType2
      let passResult := env.canPass checkType qFormalType
      if !passResult.passes then
        Except.error ⟨FailReason.failCannotPass passResult.reasonCode, some e.formalIdx⟩
      else
        Except.ok st1

/-- Processing of all formal/actual pairs in order, stopping at the first
failure. -/
def processEntries (env : InstEnv) (call : CallInfo) :
    InstState → List FAEntry → Except InstFail InstState
  | st, [] => Except.ok st
  | st, e :: rest =>
    match processEntry env call st e with
    | Except.error f => Except.error f
    | Except.ok st' => processEntries env call st' rest

/-- Model of the vararg finalization after the pair loop: when vararg
element types were collected, a tuple of them is substituted for the
vararg formal if any element required instantiation or the declared tuple
size is unknown. -/
def finalizeVarArgs (env : InstEnv) (st : InstState) : InstState :=
  if st.varargsTypes.length > 0 then
    let instVA := if !env.sigVarArgKnownSize then true else st.instantiateVarArgs
    if instVA then
      { st with
        substitutions := st.substitutions ++ [(env.varArgFormalDeclId, env.varArgTupleOf st.varargsTypes)],
        formalsInstantiated := st.formalsInstantiated ++ [st.varArgIdx.getD 0],
        instantiateVarArgs := instVA }
    else
      st
  else
    st

/-- Model of `instantiateSignature`: build the formal/actual map, process
each pair accumulating substitutions, finalize varargs; with no
substitutions the existing signature is returned as the success; otherwise
the formal types are re-resolved under the substitutions, the
`needsInstantiation` flag and the where clause are computed, and a new
signature instantiated from the input is produced (an initializer's final
signature is computed by resolving its body). -/
def instantiateSignature (env : InstEnv) (sig : Sig) (call : CallInfo) :
    ApplicabilityResult :=
  match env.faMap sig.sigId call with
  | none =>
    ApplicabilityResult.failure sig.sigId FailReason.failFormalActualMismatch none
  | some entries =>
    match processEntries env call {} entries with
    | Except.error f => ApplicabilityResult.failure sig.sigId f.reason f.formalIdx
    | Except.ok st0 =>
      let st := finalizeVarArgs env st0
      if st.substitutions.isEmpty then
        -- use the existing signature if there were no substitutions
        ApplicabilityResult.success sig
      else
        if sig.isFn then
          if !(env.varArgCountOk st.substitutions) then
            ApplicabilityResult.failure sig.sigId FailReason.failVarargMismatch none
          else
            let formalTypes := env.finalFormalTypes st.substitutions
            let needsInst := anyFormalNeedsInstantiation env.genericity formalTypes
              sig.formalDeclIds (some st.substitutions)
            let wr := (whereClauseResultM (env.whereEval st.substitutions) needsInst).1
            let result : Sig :=
              { sig with
                formalTypes := formalTypes,
                whereResult := wr,
                needsInstantiation := needsInst,
                instantiatedFromId := some sig.sigId }
            if !result.isCompilerGenerated && result.isInitFn then
              ApplicabilityResult.success (env.initFinal result)
            else
              ApplicabilityResult.success result
        else
          let formalTypes := env.adFormalTypes st.substitutions
          let needsInst := anyFormalNeedsInstantiation env.genericity formalTypes
            sig.formalDeclIds (some st.substitutions)
          let result : Sig :=
            { sig with
              formalTypes := formalTypes,
              whereResult := WhereR.wNone,
              needsInstantiation := needsInst,
              instantiatedFromId := some sig.sigId }
          ApplicabilityResult.success result

/-- Model of `doIsCandidateApplicableInstantiating`: instantiate, then
reject the result when its substituted where clause came out false. -/
def doIsCandidateApplicableInstantiating (env : InstEnv) (typedSignature : Sig)
    (call : CallInfo) : ApplicabilityResult :=
  match instantiateSignature env typedSignature call with
  | ApplicabilityResult.failure a b c => ApplicabilityResult.failure a b c
  | ApplicabilityResult.success cand =>
    if cand.whereResult == WhereR.wFalse then
      ApplicabilityResult.failure typedSignature.sigId FailReason.failWhereClause none
    else
      ApplicabilityResult.success cand

/-- Model of `isUntypedSignatureApplicable`: the formal/actual map must be
valid and, except for op calls, method-ness must match. -/
def isUntypedSignatureApplicable (faMapValid : Bool) (ufsIsMethod : Bool)
    (ci : CallInfo) : Bool :=
  faMapValid && (ci.isOpCall || (ci.isMethodCall == ufsIsMethod))

/-- The per-pair `canPass` loop of `isInitialTypedSignatureApplicable`: a
"use the default" actual (unknown kind, null type, no `?` argument) is
skipped; otherwise the actual must pass to the formal type (to the vararg
tuple's star type for vararg formals). -/
def initialEntriesCheck (env : InstEnv) (tfs : Sig) (ci : CallInfo) :
    List FAEntry → Option InstFail
  | [] => none
  | e :: rest =>
    if e.actual.kind == QKind.unknownK && e.actual.tyId.isNone &&
        !ci.hasQuestionArg then
      initialEntriesCheck env tfs ci rest
    else
      let formalType := tfs.formalTypes.getD e.formalIdx unknownQT
      let got :=
        if e.isVarArgEntry then
          env.canPass e.actual (env.varArgElemType formalType)
        else
          env.canPass e.actual formalType
      if !got.passes then
        some ⟨FailReason.failCannotPass got.reasonCode, some e.formalIdx⟩
      else
        initialEntriesCheck env tfs ci rest

/-- Model of `isInitialTypedSignatureApplicable`: untyped applicability,
the per-pair `canPass` loop, the vararg-count check (abstracted to a
boolean, since it only inspects the vararg tuple), and last the rejection
of a candidate whose where-clause result is already false. -/
def isInitialTypedSignatureApplicable (env : InstEnv) (tfs : Sig)
    (faMapValid : Bool) (entries : List FAEntry) (varargInitOk : Bool)
    (ci : CallInfo) : ApplicabilityResult :=
  if !(isUntypedSignatureApplicable faMapValid tfs.isMethod ci) then
    ApplicabilityResult.failure tfs.sigId FailReason.failCandidateOther none
  else
    match initialEntriesCheck env tfs ci entries with
    | some f => ApplicabilityResult.failure tfs.sigId f.reason f.formalIdx
    | none =>
      if !varargInitOk then
        ApplicabilityResult.failure tfs.sigId FailReason.failVarargMismatch none
      else if tfs.whereResult == WhereR.wFalse then
        ApplicabilityResult.failure tfs.sigId FailReason.failWhereClause none
      else
        ApplicabilityResult.success tfs

/-- The AST tag classification of a lexical lookup hit, as dispatched by
`doIsCandidateApplicableInitial`. -/
inductive CTag
  | typeDecl
  | formalDecl
  | varDecl
  | functionDecl
deriving DecidableEq, Repr

/-- One candidate id found by lookup, together with the data the initial
applicability check consults about it: its AST classification, whether it
is a parenless function or field, the generic fields entering its type
constructor (for a type), its initial typed signature and formal/actual
map (for a function), and the outcomes of the external checks the source
performs on it. -/
structure InitCand where
  candId : Nat
  tag : CTag := CTag.functionDecl
  parenlessFnOrField : Bool := true
  ctorFormalDeclIds : List Nat := []
  ctorFormalTypes : List QT := []
  tfs : Sig := { sigId := 0 }
  faMapValid : Bool := true
  entries : List FAEntry := []
  varargInitOk : Bool := true
  initReceiverPasses : Bool := true
deriving DecidableEq, Repr

/-- Model of `typeConstructorInitial`: the compiler-generated type
constructor signature has no where clause and always needs
instantiation. -/
def typeConstructorInitialSig (candId : Nat) (declIds : List Nat)
    (formalTypes : List QT) : Sig :=
  { sigId := candId,
    formalDeclIds := declIds,
    formalTypes := formalTypes,
    whereResult := WhereR.wNone,
    needsInstantiation := true,
    isCompilerGenerated := true,
    isMethod := false,
    isFn := false }

/-- Modelled from the spec: `fieldAccessor` (in the default-functions
unit, outside the shown source) builds the compiler-generated parenless
accessor method for a field; a compiler-generated signature is built
without a where clause, so its where result is `WHERE_NONE` and it is
concrete. -/
def fieldAccessorSig (candId : Nat) : Sig :=
  { sigId := candId,
    whereResult := WhereR.wNone,
    needsInstantiation := false,
    isCompilerGenerated := true,
    isMethod := true }

/-- Model of `doIsCandidateApplicableInitial`: parenless calls only accept
parenless routines and fields; calling a type yields its type-constructor
signature; formals are not candidates; a variable is only a candidate as a
parenless method field access; for functions, an `init`/`init=` method
call first checks the receiver and then the initial typed signature is
checked for applicability. -/
def doIsCandidateApplicableInitial (env : InstEnv) (c : InitCand)
    (ci : CallInfo) : ApplicabilityResult :=
  if ci.isParenless && !c.parenlessFnOrField then
    ApplicabilityResult.failure c.candId FailReason.failParenlessMismatch none
  else
    match c.tag with
    | CTag.typeDecl =>
      ApplicabilityResult.success
        (typeConstructorInitialSig c.candId c.ctorFormalDeclIds c.ctorFormalTypes)
    | CTag.formalDecl =>
      ApplicabilityResult.failure c.candId FailReason.failCandidateOther none
    | CTag.varDecl =>
      if ci.isParenless && ci.isMethodCall && ci.actuals.length == 1 then
        ApplicabilityResult.success (fieldAccessorSig c.candId)
      else
        ApplicabilityResult.failure c.candId FailReason.failCandidateOther none
    | CTag.functionDecl =>
      if ci.isMethodCall && isInitName ci.nameCode && !c.initReceiverPasses then
        ApplicabilityResult.failure c.candId FailReason.failCandidateOther none
      else
        isInitialTypedSignatureApplicable env c.tfs c.faMapValid c.entries
          c.varargInitOk ci

/-- Model of `filterCandidatesInitialGatherRejected`: run the initial
applicability check over every found id; successes join the matching list
and failures join the rejected list only when rejections were
requested. -/
def filterCandidatesInitialGatherRejected (env : InstEnv)
    (lst : List InitCand) (call : CallInfo) (gatherRejected : Bool) :
    List Sig × List ApplicabilityResult :=
  match lst with
  | [] => ([], [])
  | c :: rest =>
    let s := doIsCandidateApplicableInitial env c call
    let r := filterCandidatesInitialGatherRejected env rest call gatherRejected
    match s with
    | ApplicabilityResult.success cand => (cand :: r.1, r.2)
    | ApplicabilityResult.failure _ _ _ =>
      if gatherRejected then (r.1, s :: r.2) else r

/-- Model of `filterCandidatesInstantiating`: concrete candidates are kept
directly; generic ones are instantiated, successes join the result — and,
as in the source (which lacks an `else` between the success push and the
rejected push), every instantiation outcome joins the rejected vector
whenever the caller supplied one. -/
def filterCandidatesInstantiating (env : InstEnv) (lst : List Sig)
    (call : CallInfo) (gatherRejected : Bool) :
    List Sig × List ApplicabilityResult :=
  match lst with
  | [] => ([], [])
  | typedSignature :: rest =>
    let r := filterCandidatesInstantiating env rest call gatherRejected
    if typedSignature.needsInstantiation then
      let instantiated := doIsCandidateApplicableInstantiating env typedSignature call
      let r1 :=
        match instantiated with
        | ApplicabilityResult.success cand => cand :: r.1
        | ApplicabilityResult.failure _ _ _ => r.1
      let r2 := if gatherRejected then instantiated :: r.2 else r.2
      (r1, r2)
    else
      (typedSignature :: r.1, r.2)

/-- The compiler-generated method data consulted by
`considerCompilerGeneratedCandidates` for a call: whether a
compiler-generated method is needed for the receiver and name, the
signature `getCompilerGeneratedMethod` yields, and its formal/actual-map
data. -/
structure CgInfo where
  needed : Bool := false
  tfs : Sig := { sigId := 0 }
  faMapValid : Bool := true
  entries : List FAEntry := []
  varargInitOk : Bool := true
deriving DecidableEq, Repr

/-- Model of `considerCompilerGeneratedCandidates`: only method and op
calls are considered; the generated signature must pass the initial
applicability check; a concrete signature is kept as-is and a generic one
is instantiated on demand (the source asserts that this instantiation
succeeds). -/
def considerCompilerGeneratedCandidates (env : InstEnv) (cg : CallInfo → CgInfo)
    (ci : CallInfo) : List Sig :=
  if !ci.isMethodCall && !ci.isOpCall then
    []
  else
    let info := cg ci
    if !info.needed then
      []
    else if !(isInitialTypedSignatureApplicable env info.tfs info.faMapValid
        info.entries info.varargInitOk ci).isSuccess then
      []
    else if !info.tfs.needsInstantiation then
      [info.tfs]
    else
      match doIsCandidateApplicableInstantiating env info.tfs ci with
      | ApplicabilityResult.success cand => [cand]
      | ApplicabilityResult.failure _ _ _ => []

/-- The candidate sources consulted by `gatherAndFilterCandidates`, in
order of consultation. -/
inductive Source
  | srcCompilerGenerated
  | srcLexical
  | srcPoi (k : Nat)
  | srcForwarding
deriving DecidableEq, Repr

/-- The environment of a `gatherAndFilterCandidates` run: the external
lookup per scope, the compiler-generated-method data, the POI chain, and
the forwarding data of receiver types. -/
structure GatherEnv where
  instEnv : InstEnv
  cg : CallInfo → CgInfo
  lookup : Nat → CallInfo → List InitCand
  inScope : Nat
  poiScopes : List Nat
  typeUsesForwarding : QT → Bool
  isInsideForwarding : Bool
  forwardTypes : CallInfo → List QT
  cycleFound : CallInfo → Bool
  fwdFuel : Nat

/-- The compiler-generated stage of the forwarding gather, over every
forwarded call in order. -/
def cgOverCalls (env : InstEnv) (cg : CallInfo → CgInfo) :
    List CallInfo → List Sig
  | [] => []
  | fci :: rest =>
    considerCompilerGeneratedCandidates env cg fci ++ cgOverCalls env cg rest

/-- The lookup-and-filter stage of the forwarding gather at one scope,
over every forwarded call in order (no rejections are collected on the
forwarding path). -/
def lexOverCalls (g : GatherEnv) (scope : Nat) : List CallInfo → List Sig
  | [] => []
  | fci :: rest =>
    (filterCandidatesInstantiating g.instEnv
      (filterCandidatesInitialGatherRejected g.instEnv (g.lookup scope fci)
        fci false).1
      fci false).1 ++ lexOverCalls g scope rest

/-- The POI stage of the forwarding gather: walk the POI chain, stopping
as soon as the non-POI candidates or the POI candidates are non-empty;
at each scope every forwarded call is looked up and filtered. -/
def gatherForwardingPoi (g : GatherEnv) (fcis : List CallInfo)
    (nonPoi : List Sig) : List Nat → List Sig
  | [] => []
  | scope :: rest =>
    if !nonPoi.isEmpty then
      []
    else
      let found := lexOverCalls g scope fcis
      if found.isEmpty then gatherForwardingPoi g fcis nonPoi rest
      else found

/-- One step of the forwarding-to-forwarding recursion: forwarded calls
whose (forwarded) receiver itself uses forwarding are gathered recursively
and their candidates accumulate. -/
def fwdRecStep (g : GatherEnv) (recFn : CallInfo → List Sig × List Sig)
    (acc : List Sig × List Sig) (fci : CallInfo) : List Sig × List Sig :=
  if fci.isMethodCall && decide (1 ≤ fci.actuals.length) &&
      g.typeUsesForwarding (fci.actuals.headD {}) then
    let r := recFn fci
    (acc.1 ++ r.1, acc.2 ++ r.2)
  else
    acc

/-- Model of `gatherAndFilterCandidatesForwarding` (fuel-bounded; the
cycle check of the source bounds the forwarding-to-forwarding recursion):
build one `CallInfo` per forwarded-to type with the receiver replaced,
then run compiler-generated, lexical and POI stages over all of them (no
rejections are collected in this path), and if everything is empty recurse
through forwarding-to-forwarding. -/
def gatherForwarding (g : GatherEnv) : Nat → CallInfo → List Sig × List Sig
  | 0, _ => ([], [])
  | fuel + 1, ci =>
    let targets := if g.cycleFound ci then [] else g.forwardTypes ci
    if targets.isEmpty then
      ([], [])
    else
      let forwardingCis := targets.map fun ft =>
        { ci with calledType := ft, actuals := ft :: ci.actuals.tail }
      let nonPoi1 := cgOverCalls g.instEnv g.cg forwardingCis ++
        lexOverCalls g g.inScope forwardingCis
      let poi1 := gatherForwardingPoi g forwardingCis nonPoi1 g.poiScopes
      if nonPoi1.isEmpty && poi1.isEmpty then
        forwardingCis.foldl
          (fwdRecStep g (fun fci => gatherForwarding g fuel fci))
          (nonPoi1, poi1)
      else
        (nonPoi1, poi1)

/-- The output of `gatherAndFilterCandidates`: the gathered candidates,
the collected rejections, and the trace of sources consulted. -/
structure GatherOut where
  candidates : List Sig
  rejected : List ApplicabilityResult
  consulted : List Source
deriving DecidableEq, Repr

/-- The POI stage of `gatherAndFilterCandidates`: walk the POI chain,
stopping as soon as any candidate has been found; at each scope the
lookup results are filtered (rejections are collected when requested). -/
def gatherPoiLoop (g : GatherEnv) (ci : CallInfo) (gatherRejected : Bool) :
    Nat → List Nat → List Sig → List ApplicabilityResult → List Source →
    List Sig × List ApplicabilityResult × List Source
  | _, [], cands, rej, cons => (cands, rej, cons)
  | k, scope :: rest, cands, rej, cons =>
    if !cands.isEmpty then
      (cands, rej, cons)
    else
      let pr := filterCandidatesInitialGatherRejected g.instEnv
        (g.lookup scope ci) ci gatherRejected
      let fi := filterCandidatesInstantiating g.instEnv pr.1 ci gatherRejected
      gatherPoiLoop g ci gatherRejected (k + 1) rest (cands ++ fi.1)
        (rej ++ pr.2 ++ fi.2) (cons ++ [Source.srcPoi k])

/-- The compiler-generated plus lexical-scope stage of
`gatherAndFilterCandidates` (both are always searched): the candidates
gathered so far and the rejections collected so far. -/
def gatherStageLexical (g : GatherEnv) (ci : CallInfo)
    (gatherRejected : Bool) : List Sig × List ApplicabilityResult :=
  let cgCands := considerCompilerGeneratedCandidates g.instEnv g.cg ci
  let pr := filterCandidatesInitialGatherRejected g.instEnv
    (g.lookup g.inScope ci) ci gatherRejected
  let fi := filterCandidatesInstantiating g.instEnv pr.1 ci gatherRejected
  (cgCands ++ fi.1, pr.2 ++ fi.2)

/-- The state after the POI stage of `gatherAndFilterCandidates`. -/
def gatherStagePoi (g : GatherEnv) (ci : CallInfo) (gatherRejected : Bool) :
    List Sig × List ApplicabilityResult × List Source :=
  let base := gatherStageLexical g ci gatherRejected
  gatherPoiLoop g ci gatherRejected 0 g.poiScopes base.1 base.2 []

/-- Whether `gatherAndFilterCandidates` consults forwarding given the
candidate set produced by the earlier stages. -/
def forwardingConsultCond (g : GatherEnv) (ci : CallInfo)
    (cands : List Sig) : Bool :=
  cands.isEmpty && ci.isMethodCall && decide (1 ≤ ci.actuals.length) &&
    g.typeUsesForwarding (ci.actuals.headD {}) && !g.isInsideForwarding

/-- Model of `gatherAndFilterCandidates`: compiler-generated candidates
first, then the lexical scope (both unconditionally), then the POI chain
while no candidate was found, and forwarding only when everything came up
empty, the call is a method call with a receiver whose type uses
forwarding, and the call is not inside a forwarding clause.  The consulted
trace records which sources were searched. -/
def gatherAndFilterCandidates (g : GatherEnv) (ci : CallInfo)
    (gatherRejected : Bool) : GatherOut :=
  let poiOut := gatherStagePoi g ci gatherRejected
  let consulted1 := [Source.srcCompilerGenerated, Source.srcLexical] ++ poiOut.2.2
  if forwardingConsultCond g ci poiOut.1 then
    let fwd := gatherForwarding g g.fwdFuel ci
    { candidates := poiOut.1 ++ fwd.1 ++ fwd.2,
      rejected := poiOut.2.1,
      consulted := consulted1 ++ [Source.srcForwarding] }
  else
    { candidates := poiOut.1,
      rejected := poiOut.2.1,
      consulted := consulted1 }

/-- The outcome of a `resolveCall` invocation, as consulted by
`resolveCallInMethod`: whether any candidate was found, plus an abstract
identity for the rest of the `CallResolutionResult`. -/
structure CallResult where
  foundCandidates : Bool
  resultCode : Nat
deriving DecidableEq, Repr

/-- Model of `CallInfo::createWithReceiver`: the call re-written as a
method call on the given receiver. -/
def CallInfo.createWithReceiver (ci : CallInfo) (implicitReceiver : QT) :
    CallInfo :=
  { ci with
    isMethodCall := true,
    calledType := implicitReceiver,
    actuals := implicitReceiver :: ci.actuals }

/-- Model of `shouldAttemptImplicitReceiver`: non-method, non-op calls
with a typed implicit receiver and a name that is not empty and none of
`?`, `owned`, `shared`, `borrowed`, `unmanaged`. -/
def shouldAttemptImplicitReceiver (ci : CallInfo) (implicitReceiver : QT) :
    Bool :=
  !ci.isMethodCall && !ci.isOpCall && implicitReceiver.tyId.isSome &&
    !(ci.nameCode == nameEmpty) && !(ci.nameCode == nameQuestion) &&
    !(ci.nameCode == nameOwned) && !(ci.nameCode == nameShared) &&
    !(ci.nameCode == nameBorrowed) && !(ci.nameCode == nameUnmanaged)

/-- Model of `resolveCallInMethod`: when an implicit receiver is available
and the call is not written as a method, first resolve the call rewritten
as a method call on that receiver; if that finds candidates it takes
precedence, otherwise the call is resolved as written. -/
def resolveCallInMethod (resolveCallO : CallInfo → CallResult) (ci : CallInfo)
    (implicitReceiver : QT) : CallResult :=
  if shouldAttemptImplicitReceiver ci implicitReceiver then
    let ret := resolveCallO (CallInfo.createWithReceiver ci implicitReceiver)
    if ret.foundCandidates then
      ret
    else
      resolveCallO ci
  else
    resolveCallO ci

/-- A benign concrete instantiation environment in which every `canPass`
succeeds without instantiation; concrete scenarios below override the
relevant fields. -/
def baseInstEnv : InstEnv :=
  { canPass := fun _ _ => {},
    getInstantiationType := fun a _ => a,
    resolveIntent := fun q => q.kind,
    genericity := fun _ => Genericity.concrete,
    varArgElemType := id,
    formalTypeFor := fun _ _ => { kind := QKind.inK, tyId := some 7 },
    qFormalTypeFor := fun _ _ => { kind := QKind.inK, tyId := some 7 },
    varArgTupleTypeFor := fun _ => unknownQT,
    varArgTupleOf := fun _ => unknownQT,
    varArgFormalDeclId := 999,
    finalFormalTypes := fun s => s.map Prod.snd,
    adFormalTypes := fun s => s.map Prod.snd,
    whereEval := fun _ => none,
    varArgCountOk := fun _ => true,
    sigVarArgKnownSize := true,
    faMap := fun _ _ => some [],
    initFinal := id }

/-- A generic type actual (say the generic record `list`) passed as a
type argument. -/
def qtGenericActual : QT :=
  { kind := QKind.typeK, tyId := some 50 }

/-- The `type t` formal's `AnyType` qualified type. -/
def qtAnyFormal : QT :=
  { kind := QKind.typeK, tyId := some 60 }

/-- Environment of the scenario `proc f(type t)` called with a generic
type actual: `canPass` instantiates without conversion, the substituted
formal type is the generic actual itself. -/
def c3Env : InstEnv :=
  { baseInstEnv with
    canPass := fun _ _ => { instantiates := true },
    genericity := fun q =>
      if q.tyId == some 50 then Genericity.generic else Genericity.concrete,
    formalTypeFor := fun _ _ => qtAnyFormal,
    qFormalTypeFor := fun _ _ => qtAnyFormal,
    finalFormalTypes := fun _ => [qtGenericActual],
    faMap := fun _ _ => some [{ formalIdx := 0, declId := 10, actual := qtGenericActual }] }

/-- The initial signature of `proc f(type t)`. -/
def c3Sig : Sig :=
  { sigId := 1,
    formalDeclIds := [10],
    formalTypes := [qtAnyFormal],
    whereResult := WhereR.wNone,
    needsInstantiation := true }

/-- The call `f(someGenericType)`. -/
def c3Call : CallInfo :=
  { nameCode := 100, actuals := [qtGenericActual] }

/-- The instantiated signature produced for `f(someGenericType)`:
`needsInstantiation` is false although the substituted formal is
generic. -/
def c3InstSig : Sig :=
  { c3Sig with
    formalTypes := [qtGenericActual],
    whereResult := WhereR.wNone,
    needsInstantiation := false,
    instantiatedFromId := some 1 }

/-- Environment of a call whose single actual passes to the formal without
instantiation, so that no substitution is recorded. -/
def c10Env : InstEnv :=
  { baseInstEnv with
    faMap := fun _ _ => some
      [{ formalIdx := 0, declId := 11,
         actual := { kind := QKind.varK, tyId := some 70 } }] }

/-- A generic signature for which the call of `c10Env` records no
substitution. -/
def c10Sig : Sig :=
  { sigId := 2,
    formalDeclIds := [11],
    formalTypes := [{ kind := QKind.inK, tyId := some 70 }],
    whereResult := WhereR.wTbd,
    needsInstantiation := true }

/-- The call paired with `c10Env`. -/
def c10Call : CallInfo :=
  { nameCode := 101, actuals := [{ kind := QKind.varK, tyId := some 70 }] }

/-- The `shared Child` actual of the intent-recheck scenario. -/
def c7Actual : QT :=
  { kind := QKind.varK, tyId := some 80 }

/-- Environment of the scenario `shared Child` passed to
`ref x: shared Parent`: the first `canPass` instantiates with a
conversion, and the re-check of the instantiation type (type id 82) under
the resolved `ref` intent fails with reason code 7 because `ref` requires
an exact type match. -/
def c7Env : InstEnv :=
  { baseInstEnv with
    canPass := fun _ f =>
      if f.tyId == some 82 then { passes := false, reasonCode := 7 }
      else { instantiates := true, converts := true },
    getInstantiationType := fun _ _ => { kind := QKind.refK, tyId := some 82 },
    resolveIntent := fun _ => QKind.refK,
    formalTypeFor := fun _ _ => { kind := QKind.refK, tyId := some 81 },
    qFormalTypeFor := fun _ _ => { kind := QKind.refK, tyId := some 81 },
    faMap := fun _ _ => some [{ formalIdx := 0, declId := 12, actual := c7Actual }] }

/-- The formal/actual pair of the intent-recheck scenario. -/
def c7Entry : FAEntry :=
  { formalIdx := 0, declId := 12, actual := c7Actual }

/-- The generic signature of `proc g(ref x: shared Parent)` (generic in
the management of its formal). -/
def c7Sig : Sig :=
  { sigId := 3,
    formalDeclIds := [12],
    formalTypes := [{ kind := QKind.refK, tyId := some 81 }],
    whereResult := WhereR.wNone,
    needsInstantiation := true }

/-- The call `g(sharedChildValue)`. -/
def c7Call : CallInfo :=
  { nameCode := 103, actuals := [c7Actual] }

/-- Environment of a generic candidate whose instantiation succeeds while
the caller collects rejections. -/
def c6Env : InstEnv :=
  { baseInstEnv with
    faMap := fun _ _ => some
      [{ formalIdx := 0, declId := 13,
         actual := { kind := QKind.varK, tyId := some 90 } }] }

/-- The generic candidate of the rejection scenario. -/
def c6Sig : Sig :=
  { sigId := 4,
    formalDeclIds := [13],
    formalTypes := [{ kind := QKind.inK, tyId := some 90 }],
    whereResult := WhereR.wTbd,
    needsInstantiation := true }

/-- The call of the rejection scenario. -/
def c6Call : CallInfo :=
  { nameCode := 102, actuals := [{ kind := QKind.varK, tyId := some 90 }] }

/-- A concrete implicit receiver with a known type. -/
def c9Recv : QT :=
  { kind := QKind.varK, tyId := some 95 }

/-- A non-method, non-operator call eligible for the implicit-receiver
attempt. -/
def c9Ci : CallInfo :=
  { nameCode := 42, actuals := [{ kind := QKind.varK, tyId := some 96 }] }

/-- A resolver in which both the method-synthesized call and the call as
written resolve, with different outcomes. -/
def c9Resolve : CallInfo → CallResult := fun ci =>
  if ci.isMethodCall then { foundCandidates := true, resultCode := 1 }
  else { foundCandidates := true, resultCode := 2 }

/-- A resolver in which the method-synthesized call finds no candidates
but the call as written resolves. -/
def c9ResolveB : CallInfo → CallResult := fun ci =>
  if ci.isMethodCall then { foundCandidates := false, resultCode := 1 }
  else { foundCandidates := true, resultCode := 2 }

/-- A compiler-generated concrete method signature. -/
def c5SigA : Sig :=
  { sigId := 21, isMethod := true }

/-- A lexically-found concrete method signature. -/
def c5SigB : Sig :=
  { sigId := 22, isMethod := true }

/-- A method call with one receiver actual. -/
def c5Ci : CallInfo :=
  { nameCode := 43, isMethodCall := true,
    actuals := [{ kind := QKind.varK, tyId := some 97 }] }

/-- A gather environment in which the compiler-generated source yields a
candidate and the lexical scope yields another. -/
def c5G : GatherEnv :=
  { instEnv := baseInstEnv,
    cg := fun _ => { needed := true, tfs := c5SigA },
    lookup := fun s _ => if s == 0 then [{ candId := 22, tfs := c5SigB }] else [],
    inScope := 0,
    poiScopes := [],
    typeUsesForwarding := fun _ => false,
    isInsideForwarding := false,
    forwardTypes := fun _ => [],
    cycleFound := fun _ => false,
    fwdFuel := 3 }

/-- A concrete typed signature whose where clause is already known
false. -/
def c1TfsFalse : Sig :=
  { sigId := 31, isMethod := false, whereResult := WhereR.wFalse }

/-- A plain non-method call. -/
def c1Ci : CallInfo :=
  { nameCode := 44, actuals := [{ kind := QKind.varK, tyId := some 98 }] }

/-- The qualified type of a where clause that evaluated to `param
false`. -/
def qtWhereFalse : QT :=
  { kind := QKind.paramK, tyIsBool := true, paramB := some false }

/-- Environment of a generic function whose substituted where clause
evaluates to `param false`. -/
def c1Env : InstEnv :=
  { baseInstEnv with
    canPass := fun _ _ => { instantiates := true },
    formalTypeFor := fun _ _ => qtAnyFormal,
    qFormalTypeFor := fun _ _ => qtAnyFormal,
    finalFormalTypes := fun _ => [qtGenericActual],
    whereEval := fun _ => some qtWhereFalse,
    faMap := fun _ _ => some [{ formalIdx := 0, declId := 14, actual := qtGenericActual }] }

/-- The generic signature of the where-false instantiation scenario. -/
def c1Sig : Sig :=
  { sigId := 32,
    formalDeclIds := [14],
    formalTypes := [qtAnyFormal],
    whereResult := WhereR.wTbd,
    needsInstantiation := true }

/-- The call of the where-false instantiation scenario. -/
def c1Call : CallInfo :=
  { nameCode := 104, actuals := [qtGenericActual] }

end ChapelRes

namespace ChapelRes

/-- C2 (counterexample): for a composite that is not generic with defaults,
`fieldsForTypeDecl(ct, USE_DEFAULTS)` does not return the same
`ResolvedFields` object as `fieldsForTypeDecl(ct, USE_DEFAULTS_OTHER_FIELDS)`:
the code re-queries with `IGNORE_DEFAULTS`, whose memo entry is a distinct
object from the `USE_DEFAULTS_OTHER_FIELDS` entry. -/
theorem fieldsForTypeDecl_useDefaults_ne_otherFields :
    c2Env.isGenericWithDefaults c2Ct DefaultsPolicy.useDefaultsOtherFields = false ∧
    fieldsForTypeDecl c2Env c2Ct DefaultsPolicy.useDefaults ≠
      fieldsForTypeDecl c2Env c2Ct DefaultsPolicy.useDefaultsOtherFields := by
  constructor
  · rfl
  · decide

/-- C2 (amended): for a composite that is not generic with defaults under
the `USE_DEFAULTS_OTHER_FIELDS` policy, `fieldsForTypeDecl(ct, USE_DEFAULTS)`
returns the same `ResolvedFields` object as
`fieldsForTypeDecl(ct, IGNORE_DEFAULTS)` (both return the memo entry of the
`IGNORE_DEFAULTS` query). -/
theorem fieldsForTypeDecl_useDefaults_eq_ignoreDefaults
    (env : FieldsEnv) (ct : CompositeTy)
    (h : env.isGenericWithDefaults ct DefaultsPolicy.useDefaultsOtherFields = false) :
    fieldsForTypeDecl env ct DefaultsPolicy.useDefaults =
      fieldsForTypeDecl env ct DefaultsPolicy.ignoreDefaults := by
  simp [fieldsForTypeDecl, h]

/-- Witness for the amended C2 theorem at a concrete composite and
environment. -/
theorem fieldsForTypeDecl_useDefaults_eq_ignoreDefaults_witness :
    fieldsForTypeDecl c2Env c2Ct DefaultsPolicy.useDefaults =
      fieldsForTypeDecl c2Env c2Ct DefaultsPolicy.ignoreDefaults :=
  fieldsForTypeDecl_useDefaults_eq_ignoreDefaults c2Env c2Ct rfl

/-- C8 (counterexample): the call `int(x)` with a run-time `var int(64)`
actual is neither a generic-bound shape nor a `param int` width, yet
`getNumericType` yields `UnknownType` and reports no error, where the
claim demands an "invalid numeric type construction" error with
`ErroneousType`. -/
theorem getNumericType_varActual_counterexample :
    numericTypeViaSpecialCall c8Call = (some Ty.unknownTy, 0) ∧
    numericTypeViaSpecialCall c8Call ≠ (some Ty.erroneousTy, 1) := by
  constructor <;> decide

/-- C8 (amended): for a non-method call to `int`, `uint`, `real`, `imag`
or `complex`: a `?` call with no actuals, or a single `AnyType` or
valueless-`param` actual, yields the generic bound; a single `param int`
actual `w` with `0 ≤ w ≤ 128` yields the primitive type of that name and
width; a wrong actual count reports an error and yields `ErroneousType`;
a single actual whose type or param value is not yet known yields
`UnknownType` (or propagates the unknown/erroneous type) without an
error; and a single fully-known actual that is not a `param int`, or
whose width lies outside `[0, 128]`, reports an error and yields
`ErroneousType`. -/
theorem getNumericType_characterization
    (ci : NCall) (hm : ci.isMethodCall = false)
    (hname : isNumericCtorName ci.name = true)
    (hbool : ci.name ≠ NumName.boolN) :
    (ci.hasQuestionArg = true → ci.actuals = [] →
      numericTypeViaSpecialCall ci = (genericBoundFor ci.name, 0)) ∧
    (∀ qt : NQT, ci.hasQuestionArg = false → ci.actuals = [qt] →
      ((∃ t, qt.ty = some t ∧ t.isAnyType = true) ∨
        (qt.isParam = true ∧ qt.pv = none)) →
      numericTypeViaSpecialCall ci = (genericBoundFor ci.name, 0)) ∧
    (∀ (qt : NQT) (t : Ty) (w : Int), ci.hasQuestionArg = false →
      ci.actuals = [qt] → qt.ty = some t → t.isIntType = true →
      qt.pv = some (ParamVal.intP w) → 0 ≤ w → w ≤ 128 →
      numericTypeViaSpecialCall ci = (getWithNameAndWidth ci.name w, 0)) ∧
    (ci.hasQuestionArg = true → ci.actuals ≠ [] →
      numericTypeViaSpecialCall ci = (some Ty.erroneousTy, 1)) ∧
    (ci.hasQuestionArg = false → ci.actuals.length ≠ 1 →
      numericTypeViaSpecialCall ci = (some Ty.erroneousTy, 1)) ∧
    (∀ qt : NQT, ci.hasQuestionArg = false → ci.actuals = [qt] →
      ¬((∃ t, qt.ty = some t ∧ t.isAnyType = true) ∨
        (qt.isParam = true ∧ qt.pv = none)) →
      (qt.ty = none ∨
        (∃ t, qt.ty = some t ∧ (t.isUnknownType = true ∨ t.isErroneousType = true)) ∨
        (∃ t, qt.ty = some t ∧ t.isUnknownType = false ∧ t.isErroneousType = false ∧
          qt.pv = none)) →
      (numericTypeViaSpecialCall ci).2 = 0 ∧
      ((numericTypeViaSpecialCall ci).1 = some Ty.unknownTy ∨
        (numericTypeViaSpecialCall ci).1 = qt.ty)) ∧
    (∀ (qt : NQT) (t : Ty) (p : ParamVal), ci.hasQuestionArg = false →
      ci.actuals = [qt] → qt.ty = some t → t.isAnyType = false →
      t.isUnknownType = false → t.isErroneousType = false → qt.pv = some p →
      ((t.isIntType && p.isIntParam) = false ∨
        (∃ w, p = ParamVal.intP w ∧ (w < 0 ∨ 128 < w))) →
      numericTypeViaSpecialCall ci = (some Ty.erroneousTy, 1)) := by
  refine ⟨?_, ?_, ?_, ?_, ?_, ?_, ?_⟩
  · intro hq ha
    simp [numericTypeViaSpecialCall, hm, getNumericType, hname, hq, ha]
  · intro qt hq ha hgen
    have hug : ((match qt.ty with
        | some t => t.isAnyType
        | none => false) || (qt.isParam && qt.pv.isNone)) = true := by
      rcases hgen with ⟨t, hty, hany⟩ | ⟨hp, hpv⟩
      · simp [hty, hany]
      · simp [hp, hpv]
    simp [numericTypeViaSpecialCall, hm, getNumericType, hname, hq, ha, hug]
  · intro qt t w hq ha hty hint hpv hw0 hw1
    have hnotany : t.isAnyType = false := by
      cases t <;> simp_all [Ty.isIntType, Ty.isAnyType]
    have hug : ((match qt.ty with
        | some u => u.isAnyType
        | none => false) || (qt.isParam && qt.pv.isNone)) = false := by
      simp [hty, hnotany, hpv]
    have hnotunk : t.isUnknownType = false := by
      cases t <;> simp_all [Ty.isIntType, Ty.isUnknownType]
    have hnoterr : t.isErroneousType = false := by
      cases t <;> simp_all [Ty.isIntType, Ty.isErroneousType]
    have hsome : ∃ r, getWithNameAndWidth ci.name w = some r := by
      cases hn : ci.name <;>
        first
          | exact ⟨_, rfl⟩
          | (rw [hn] at hname; simp [isNumericCtorName] at hname)
    rcases hsome with ⟨r, hr⟩
    have hres : numericTypeViaSpecialCall ci = (some r, 0) := by
      simp [numericTypeViaSpecialCall, hm, getNumericType, hname, hq, ha, hug,
        hty, hnotany, hnotunk, hnoterr, hint, hpv, ParamVal.isIntParam,
        hw0, hw1, hr]
    rw [hres, hr]
  · intro hq ha
    have hlen : ci.actuals.length ≠ 0 := by
      intro h0
      exact ha (List.length_eq_zero.mp h0)
    simp [numericTypeViaSpecialCall, hm, getNumericType, hname, hq, hlen]
  · intro hq hlen
    simp [numericTypeViaSpecialCall, hm, getNumericType, hname, hq, hlen]
  · intro qt hq ha hgen hcase
    have hpvb : (qt.isParam && qt.pv.isNone) = false := by
      cases h3 : qt.isParam with
      | false => simp
      | true =>
        cases h2 : qt.pv with
        | none => exact absurd (Or.inr ⟨h3, h2⟩) hgen
        | some p => simp [h2]
    rcases hcase with h1 | ⟨t, h1, h2⟩ | ⟨t, h1, h2, h3, h4⟩
    · have hres : numericTypeViaSpecialCall ci = (some Ty.unknownTy, 0) := by
        simp [numericTypeViaSpecialCall, hm, getNumericType, hname, hq, ha,
          hpvb, h1]
      rw [hres]
      exact ⟨rfl, Or.inl rfl⟩
    · have hanyb : t.isAnyType = false := by
        cases h3 : t.isAnyType with
        | false => rfl
        | true => exact absurd (Or.inl ⟨t, h1, h3⟩) hgen
      have hue : (t.isUnknownType || t.isErroneousType) = true := by
        rcases h2 with h | h <;> simp [h]
      have hres : numericTypeViaSpecialCall ci = (some t, 0) := by
        simp [numericTypeViaSpecialCall, hm, getNumericType, hname, hq, ha,
          hpvb, h1, hanyb, hue]
      rw [hres]
      exact ⟨rfl, Or.inr h1.symm⟩
    · have hanyb : t.isAnyType = false := by
        cases h5 : t.isAnyType with
        | false => rfl
        | true => exact absurd (Or.inl ⟨t, h1, h5⟩) hgen
      have hp : qt.isParam = false := by
        cases hp0 : qt.isParam with
        | false => rfl
        | true => exact absurd (Or.inr ⟨hp0, h4⟩) hgen
      have hres : numericTypeViaSpecialCall ci = (some Ty.unknownTy, 0) := by
        simp [numericTypeViaSpecialCall, hm, getNumericType, hname, hq, ha,
          hp, h1, hanyb, h2, h3, h4]
      rw [hres]
      exact ⟨rfl, Or.inl rfl⟩
  · intro qt t p hq ha h1 hany hunk herr hpv h8
    have hug : ((match qt.ty with
        | some u => u.isAnyType
        | none => false) || (qt.isParam && qt.pv.isNone)) = false := by
      simp [h1, hany, hpv]
    rcases h8 with h8 | ⟨w, rfl, hw⟩
    · simp [numericTypeViaSpecialCall, hm, getNumericType, hname, hq, ha, hug,
        h1, hany, hunk, herr, hpv, h8]
    · cases hti : t.isIntType with
      | false =>
        simp [numericTypeViaSpecialCall, hm, getNumericType, hname, hq, ha,
          hug, h1, hany, hunk, herr, hpv, hti]
      | true =>
        have hrange : ¬(0 ≤ w ∧ w ≤ 128) := by
          rcases hw with hw | hw <;> omega
        simp [numericTypeViaSpecialCall, hm, getNumericType, hname, hq, ha,
          hug, h1, hany, hunk, herr, hpv, hti, ParamVal.isIntParam, hrange]

/-- Witness for the amended C8 theorem: the concrete call `int(32)` with
a `param int` actual of value 32 yields the 32-bit signed integer type. -/
theorem getNumericType_characterization_witness :
    numericTypeViaSpecialCall c8CallInt32 = (getWithNameAndWidth NumName.intN 32, 0) :=
  (getNumericType_characterization c8CallInt32 rfl (by decide) (by decide)).2.2.1
    { kind := QKind.paramK, ty := some (Ty.primInt 64), pv := some (ParamVal.intP 32) }
    (Ty.primInt 64) 32 rfl rfl rfl rfl rfl (by decide) (by decide)

/-- Folding the forwarding step over any target list maps `none` to
`none`. -/
theorem forwardFold_none {n : Nat} (rec : Finset (Fin n) → Fin n → Option (DfsOut n)) :
    ∀ l : List (Fin n), l.foldl (forwardStep rec) none = none := by
  intro l
  induction l with
  | nil => rfl
  | cons c cs ih => simpa [forwardStep] using ih

/-- The forwarding-target fold only grows the visited set, provided each
recursive call does. -/
theorem forwardFold_mono {n : Nat} {rec : Finset (Fin n) → Fin n → Option (DfsOut n)}
    (hrec : ∀ v c o, rec v c = some o → v ⊆ o.visited) :
    ∀ (l : List (Fin n)) (a o : DfsOut n),
      l.foldl (forwardStep rec) (some a) = some o → a.visited ⊆ o.visited := by
  intro l
  induction l with
  | nil =>
    intro a o h
    simp only [List.foldl_nil, Option.some.injEq] at h
    subst h
    exact Finset.Subset.refl _
  | cons c cs ih =>
    intro a o h
    rw [List.foldl_cons] at h
    cases hc : a.cycleFound with
    | true =>
      have hstep : forwardStep rec (some a) c = some a := by
        simp [forwardStep, hc]
      rw [hstep] at h
      exact ih a o h
    | false =>
      cases hr : rec a.visited c with
      | none =>
        have hstep : forwardStep rec (some a) c = none := by
          simp [forwardStep, hc, hr]
        rw [hstep, forwardFold_none] at h
        exact absurd h (by simp)
      | some o2 =>
        have hstep : forwardStep rec (some a) c =
            some ⟨o2.cycleFound, a.errors ++ o2.errors, o2.visited⟩ := by
          simp [forwardStep, hc, hr]
        rw [hstep] at h
        exact (hrec _ _ _ hr).trans
          (ih ⟨o2.cycleFound, a.errors ++ o2.errors, o2.visited⟩ o h)

/-- The forwarding-target fold produces a result whenever every recursive
call within the fuel bound does. -/
theorem forwardFold_isSome {n : Nat} {rec : Finset (Fin n) → Fin n → Option (DfsOut n)}
    {fuel : Nat}
    (hmono : ∀ v c o, rec v c = some o → v ⊆ o.visited)
    (hsome : ∀ v c, n - v.card < fuel → (rec v c).isSome) :
    ∀ (l : List (Fin n)) (a : DfsOut n), n - a.visited.card < fuel →
      (l.foldl (forwardStep rec) (some a)).isSome := by
  intro l
  induction l with
  | nil => intro a _; simp
  | cons c cs ih =>
    intro a ha
    rw [List.foldl_cons]
    cases hc : a.cycleFound with
    | true =>
      have hstep : forwardStep rec (some a) c = some a := by
        simp [forwardStep, hc]
      rw [hstep]
      exact ih a ha
    | false =>
      have h1 := hsome a.visited c ha
      cases hr : rec a.visited c with
      | none => rw [hr] at h1; simp at h1
      | some o2 =>
        have hstep : forwardStep rec (some a) c =
            some ⟨o2.cycleFound, a.errors ++ o2.errors, o2.visited⟩ := by
          simp [forwardStep, hc, hr]
        rw [hstep]
        apply ih
        show n - o2.visited.card < fuel
        have hcard := Finset.card_le_card (hmono _ _ _ hr)
        omega

/-- The forwarding-target fold preserves the one-diagnostic-per-detected-
cycle accounting, provided every recursive call satisfies it. -/
theorem forwardFold_errs {n : Nat} {rec : Finset (Fin n) → Fin n → Option (DfsOut n)}
    (hrec : ∀ v c o, rec v c = some o →
      o.errors.length = (if o.cycleFound then 1 else 0)) :
    ∀ (l : List (Fin n)) (a o : DfsOut n),
      a.errors.length = (if a.cycleFound then 1 else 0) →
      l.foldl (forwardStep rec) (some a) = some o →
      o.errors.length = (if o.cycleFound then 1 else 0) := by
  intro l
  induction l with
  | nil =>
    intro a o ha h
    simp only [List.foldl_nil, Option.some.injEq] at h
    subst h
    exact ha
  | cons c cs ih =>
    intro a o ha h
    rw [List.foldl_cons] at h
    cases hc : a.cycleFound with
    | true =>
      have hstep : forwardStep rec (some a) c = some a := by
        simp [forwardStep, hc]
      rw [hstep] at h
      exact ih a o ha h
    | false =>
      cases hr : rec a.visited c with
      | none =>
        have hstep : forwardStep rec (some a) c = none := by
          simp [forwardStep, hc, hr]
        rw [hstep, forwardFold_none] at h
        exact absurd h (by simp)
      | some o2 =>
        have hstep : forwardStep rec (some a) c =
            some ⟨o2.cycleFound, a.errors ++ o2.errors, o2.visited⟩ := by
          simp [forwardStep, hc, hr]
        rw [hstep] at h
        have hanil : a.errors = [] := by
          rw [hc] at ha
          simpa using ha
        apply ih _ o _ h
        show (a.errors ++ o2.errors).length = (if o2.cycleFound then 1 else 0)
        rw [hanil]
        simpa using hrec _ _ _ hr

/-- The forwarding-target fold computes the same result for two recursive
calls that agree within their fuel bounds. -/
theorem forwardFold_congr {n : Nat}
    {rec1 rec2 : Finset (Fin n) → Fin n → Option (DfsOut n)} {f1 f2 : Nat}
    (hagree : ∀ v c, n - v.card < f1 → n - v.card < f2 → rec1 v c = rec2 v c)
    (hmono : ∀ v c o, rec1 v c = some o → v ⊆ o.visited) :
    ∀ (l : List (Fin n)) (a : DfsOut n),
      n - a.visited.card < f1 → n - a.visited.card < f2 →
      l.foldl (forwardStep rec1) (some a) = l.foldl (forwardStep rec2) (some a) := by
  intro l
  induction l with
  | nil => intro a _ _; rfl
  | cons c cs ih =>
    intro a h1 h2
    rw [List.foldl_cons, List.foldl_cons]
    cases hc : a.cycleFound with
    | true =>
      have e1 : forwardStep rec1 (some a) c = some a := by simp [forwardStep, hc]
      have e2 : forwardStep rec2 (some a) c = some a := by simp [forwardStep, hc]
      rw [e1, e2]
      exact ih a h1 h2
    | false =>
      have hag := hagree a.visited c h1 h2
      cases hr : rec1 a.visited c with
      | none =>
        have e1 : forwardStep rec1 (some a) c = none := by simp [forwardStep, hc, hr]
        have e2 : forwardStep rec2 (some a) c = none := by
          simp [forwardStep, hc, ← hag, hr]
        rw [e1, e2, forwardFold_none, forwardFold_none]
      | some o2 =>
        have e1 : forwardStep rec1 (some a) c =
            some ⟨o2.cycleFound, a.errors ++ o2.errors, o2.visited⟩ := by
          simp [forwardStep, hc, hr]
        have e2 : forwardStep rec2 (some a) c =
            some ⟨o2.cycleFound, a.errors ++ o2.errors, o2.visited⟩ := by
          simp [forwardStep, hc, ← hag, hr]
        rw [e1, e2]
        have hcard := Finset.card_le_card (hmono _ _ _ hr)
        exact ih _ (by show n - o2.visited.card < f1; omega)
          (by show n - o2.visited.card < f2; omega)

/-- The forwarding-cycle DFS only grows the visited set. -/
theorem checkForwardingCycles_mono {n : Nat} (g : FwdGraph n) :
    ∀ (fuel : Nat) (v : Finset (Fin n)) (ct : Fin n) (o : DfsOut n),
      checkForwardingCycles g fuel v ct = some o → v ⊆ o.visited := by
  intro fuel
  induction fuel with
  | zero => intro v ct o h; simp [checkForwardingCycles] at h
  | succ f ih =>
    intro v ct o h
    simp only [checkForwardingCycles] at h
    cases hu : g.usesForwarding ct with
    | false =>
      rw [hu] at h
      simp only [Bool.false_eq_true, if_false, Option.some.injEq] at h
      subst h
      exact Finset.Subset.refl _
    | true =>
      rw [hu] at h
      simp only [if_true] at h
      by_cases hmem : ct ∈ v
      · rw [if_pos hmem] at h
        simp only [Option.some.injEq] at h
        subst h
        exact Finset.Subset.refl _
      · rw [if_neg hmem] at h
        have := forwardFold_mono ih _ _ _ h
        exact (Finset.subset_insert ct v).trans this

/-- The forwarding-cycle DFS yields a result whenever the fuel exceeds the
number of not-yet-visited composites. -/
theorem checkForwardingCycles_isSome {n : Nat} (g : FwdGraph n) :
    ∀ (fuel : Nat) (v : Finset (Fin n)) (ct : Fin n), n - v.card < fuel →
      (checkForwardingCycles g fuel v ct).isSome := by
  intro fuel
  induction fuel with
  | zero => intro v ct h; exact absurd h (Nat.not_lt_zero _)
  | succ f ih =>
    intro v ct h
    simp only [checkForwardingCycles]
    cases hu : g.usesForwarding ct with
    | false => simp
    | true =>
      simp only [if_true]
      by_cases hmem : ct ∈ v
      · rw [if_pos hmem]
        simp
      · rw [if_neg hmem]
        have hlt : v.card < n := by
          have hne : v ≠ Finset.univ := by
            intro hv
            exact hmem (hv ▸ Finset.mem_univ ct)
          have := Finset.card_lt_card (Finset.ssubset_univ_iff.mpr hne)
          simpa using this
        apply forwardFold_isSome (checkForwardingCycles_mono g f) ih
        show n - (insert ct v).card < f
        rw [Finset.card_insert_of_not_mem hmem]
        omega

/-- Every result of the forwarding-cycle DFS reports exactly one
"forwarding cycle detected" diagnostic when a cycle was found, and none
otherwise. -/
theorem checkForwardingCycles_errs {n : Nat} (g : FwdGraph n) :
    ∀ (fuel : Nat) (v : Finset (Fin n)) (ct : Fin n) (o : DfsOut n),
      checkForwardingCycles g fuel v ct = some o →
      o.errors.length = (if o.cycleFound then 1 else 0) := by
  intro fuel
  induction fuel with
  | zero => intro v ct o h; simp [checkForwardingCycles] at h
  | succ f ih =>
    intro v ct o h
    simp only [checkForwardingCycles] at h
    cases hu : g.usesForwarding ct with
    | false =>
      rw [hu] at h
      simp only [Bool.false_eq_true, if_false, Option.some.injEq] at h
      subst h
      simp
    | true =>
      rw [hu] at h
      simp only [if_true] at h
      by_cases hmem : ct ∈ v
      · rw [if_pos hmem] at h
        simp only [Option.some.injEq] at h
        subst h
        simp
      · rw [if_neg hmem] at h
        exact forwardFold_errs ih _ _ o (by simp) h

/-- The forwarding-cycle DFS computes the same result at any two
sufficient fuels. -/
theorem checkForwardingCycles_congr {n : Nat} (g : FwdGraph n) :
    ∀ (f1 f2 : Nat) (v : Finset (Fin n)) (ct : Fin n),
      n - v.card < f1 → n - v.card < f2 →
      checkForwardingCycles g f1 v ct = checkForwardingCycles g f2 v ct := by
  intro f1
  induction f1 with
  | zero => intro f2 v ct h1 _; exact absurd h1 (Nat.not_lt_zero _)
  | succ f1' ih =>
    intro f2 v ct h1 h2
    cases f2 with
    | zero => exact absurd h2 (Nat.not_lt_zero _)
    | succ f2' =>
      simp only [checkForwardingCycles]
      cases hu : g.usesForwarding ct with
      | false => rfl
      | true =>
        simp only [if_true]
        by_cases hmem : ct ∈ v
        · rw [if_pos hmem, if_pos hmem]
        · rw [if_neg hmem, if_neg hmem]
          have hlt : v.card < n := by
            have hne : v ≠ Finset.univ := by
              intro hv
              exact hmem (hv ▸ Finset.mem_univ ct)
            have := Finset.card_lt_card (Finset.ssubset_univ_iff.mpr hne)
            simpa using this
          apply forwardFold_congr (fun w c hw1 hw2 => ih f2' w c hw1 hw2)
            (checkForwardingCycles_mono g f1') _ _
          all_goals
            show n - (insert ct v).card < _
            rw [Finset.card_insert_of_not_mem hmem]
            omega

/-- C4: the forwarding-cycle DFS halts on every program: with any fuel
exceeding the number of composite types it yields a result, that result
is independent of the fuel (so the recursion never needs unbounded work),
each composite is inserted into the visited set at most once, and exactly
one "forwarding cycle detected" diagnostic is reported when a cycle was
detected, none otherwise. -/
theorem checkForwardingCycles_halts {n : Nat} (g : FwdGraph n) (ct : Fin n)
    (fuel : Nat) (hfuel : n < fuel) :
    ∃ o : DfsOut n,
      checkForwardingCycles g fuel ∅ ct = some o ∧
      o.errors.length = (if o.cycleFound then 1 else 0) ∧
      ∀ fuel2 : Nat, n < fuel2 → checkForwardingCycles g fuel2 ∅ ct = some o := by
  have hb : n - (∅ : Finset (Fin n)).card < fuel := by
    simpa using hfuel
  have h1 : (checkForwardingCycles g fuel ∅ ct).isSome :=
    checkForwardingCycles_isSome g fuel ∅ ct hb
  obtain ⟨o, ho⟩ := Option.isSome_iff_exists.mp h1
  refine ⟨o, ho, checkForwardingCycles_errs g fuel ∅ ct o ho, ?_⟩
  intro fuel2 h2
  have hb2 : n - (∅ : Finset (Fin n)).card < fuel2 := by
    simpa using h2
  rw [checkForwardingCycles_congr g fuel2 fuel ∅ ct hb2 hb]
  exact ho

/-- Witness for C4 at the two-record forwarding cycle of scenario S5: the
walk from `A` halts and reports exactly one cycle diagnostic. -/
theorem checkForwardingCycles_halts_witness :
    ∃ o : DfsOut 2,
      checkForwardingCycles c4Graph 3 ∅ 0 = some o ∧
      o.errors.length = (if o.cycleFound then 1 else 0) ∧
      ∀ fuel2 : Nat, 2 < fuel2 → checkForwardingCycles c4Graph fuel2 ∅ 0 = some o :=
  checkForwardingCycles_halts c4Graph 0 3 (by decide)

/-- C3 (counterexample): `instantiateSignature` produces a signature with
`needsInstantiation = false` whose substituted formal type is generic:
`anyFormalNeedsInstantiation` skips the genericity check for formals that
carry a substitution (the source comments this case as passing a generic
type into a type argument), so the claim fails for formals whose types
came in through a substitution. -/
theorem instantiated_concrete_flag_with_generic_formal :
    instantiateSignature c3Env c3Sig c3Call = ApplicabilityResult.success c3InstSig ∧
    c3InstSig.needsInstantiation = false ∧
    c3Env.genericity (c3InstSig.formalTypes.getD 0 unknownQT) ≠ Genericity.concrete := by
  refine ⟨by decide, rfl, by decide⟩

/-- Index-shifted soundness of the `anyFormalNeedsInstantiation` loop. -/
theorem anyFormalNeedsInstantiationGo_false_sound
    (g : QT → Genericity) (declIds : List Nat) (s : SubstMap) :
    ∀ (ts : List QT) (k : Nat),
      anyFormalNeedsInstantiationGo g declIds (some s) k ts = false →
      ∀ i, i < ts.length →
        (ts.getD i unknownQT).unknownFlag = false ∧
        (subsHas s (declIds.getD (k + i) 0) = false →
          g (ts.getD i unknownQT) = Genericity.concrete) := by
  intro ts
  induction ts with
  | nil =>
    intro k h i hi
    exact absurd hi (by simp)
  | cons qt rest ih =>
    intro k h i hi
    simp only [anyFormalNeedsInstantiationGo] at h
    cases hu : qt.unknownFlag with
    | true => rw [hu] at h; simp at h
    | false =>
      rw [hu] at h
      simp only [Bool.false_eq_true, if_false] at h
      cases hc : (!(subsHas s (declIds.getD k 0)) && !(g qt == Genericity.concrete)) with
      | true => rw [hc] at h; simp at h
      | false =>
        rw [hc] at h
        simp only [Bool.false_eq_true, if_false] at h
        cases i with
        | zero =>
          refine ⟨by simpa using hu, ?_⟩
          intro hsub
          rw [Nat.add_zero] at hsub
          rw [hsub] at hc
          simp only [Bool.not_false, Bool.true_and, Bool.not_eq_false'] at hc
          simpa using eq_of_beq hc
        | succ j =>
          have hj : j < rest.length := by simpa using hi
          have := ih (k + 1) h j hj
          have hidx : k + 1 + j = k + (j + 1) := by omega
          rw [hidx] at this
          simpa using this

/-- C3 (amended): a signature whose computed `needsInstantiation` flag is
false has no unknown formal type, and every formal that did not receive a
substitution has a concrete type; formals whose types came in through a
substitution are exempt from the genericity check. -/
theorem anyFormalNeedsInstantiation_false_sound
    (g : QT → Genericity) (ts : List QT) (declIds : List Nat) (s : SubstMap)
    (h : anyFormalNeedsInstantiation g ts declIds (some s) = false) :
    ∀ i, i < ts.length →
      (ts.getD i unknownQT).unknownFlag = false ∧
      (subsHas s (declIds.getD i 0) = false →
        g (ts.getD i unknownQT) = Genericity.concrete) := by
  intro i hi
  have := anyFormalNeedsInstantiationGo_false_sound g declIds s ts 0 h i hi
  simpa using this

/-- Witness for the amended C3 theorem at a one-formal concrete
signature with no substitutions. -/
theorem anyFormalNeedsInstantiation_false_sound_witness :
    (([ ({ kind := QKind.inK, tyId := some 7 } : QT) ].getD 0 unknownQT).unknownFlag = false) ∧
    (subsHas [] (([17] : List Nat).getD 0 0) = false →
      (fun _ => Genericity.concrete) (([ ({ kind := QKind.inK, tyId := some 7 } : QT) ].getD 0 unknownQT)) = Genericity.concrete) :=
  anyFormalNeedsInstantiation_false_sound (fun _ => Genericity.concrete)
    [ { kind := QKind.inK, tyId := some 7 } ] [17] [] (by decide) 0 (by decide)

/-- C10: when the formal/actual map is valid and processing all
formal/actual pairs (including the vararg finalization) records no
substitution, `instantiateSignature` returns `ApplicabilityResult::success`
carrying the input signature itself — by interning, pointer equality is
structural equality. -/
theorem instantiateSignature_noSubstitutions_returns_input
    (env : InstEnv) (sig : Sig) (call : CallInfo) (entries : List FAEntry)
    (st0 : InstState)
    (hfa : env.faMap sig.sigId call = some entries)
    (hproc : processEntries env call {} entries = Except.ok st0)
    (hsubs : (finalizeVarArgs env st0).substitutions = []) :
    instantiateSignature env sig call = ApplicabilityResult.success sig := by
  simp [instantiateSignature, hfa, hproc, hsubs]

/-- Witness for C10: a call whose single actual passes without
instantiation returns the input signature unchanged. -/
theorem instantiateSignature_noSubstitutions_returns_input_witness :
    instantiateSignature c10Env c10Sig c10Call = ApplicabilityResult.success c10Sig :=
  instantiateSignature_noSubstitutions_returns_input c10Env c10Sig c10Call
    [{ formalIdx := 0, declId := 11,
       actual := { kind := QKind.varK, tyId := some 70 } }]
    { formalIdx := 1 } rfl rfl rfl

/-- Splitting lemma for the pair-processing loop. -/
theorem processEntries_append (env : InstEnv) (call : CallInfo) :
    ∀ (l1 l2 : List FAEntry) (st : InstState),
      processEntries env call st (l1 ++ l2) =
        match processEntries env call st l1 with
        | Except.error f => Except.error f
        | Except.ok st' => processEntries env call st' l2 := by
  intro l1
  induction l1 with
  | nil => intro l2 st; rfl
  | cons e es ih =>
    intro l2 st
    simp only [List.cons_append, processEntries]
    cases hpe : processEntry env call st e with
    | error f => rfl
    | ok st' => exact ih l2 st'

/-- C7: when `canPass` reports that instantiation requires a conversion or
promotion, the computed instantiation type is re-checked against the
actual under the resolved intent, and a failing re-check makes the
instantiation attempt return a failure for that formal: the first part
states the per-pair decision, the second the propagation through the pair
processor, the third the propagation to `instantiateSignature`'s
result. -/
theorem instantiateSignature_intent_recheck :
    (∀ (env : InstEnv) (call : CallInfo) (e : FAEntry) (formalType : QT),
      (e.actual.kind == QKind.unknownK && e.actual.tyId.isNone) = false →
      (env.canPass e.actual formalType).passes = true →
      (env.canPass e.actual formalType).instantiates = true →
      ((env.canPass e.actual formalType).converts = true ∨
        (env.canPass e.actual formalType).promotes = true) →
      (env.canPass e.actual
        { env.getInstantiationType e.actual formalType with
          kind := env.resolveIntent (env.getInstantiationType e.actual formalType) }).passes = false →
      entryDecision env call e formalType =
        Except.error ⟨FailReason.failCannotPass
          (env.canPass e.actual
            { env.getInstantiationType e.actual formalType with
              kind := env.resolveIntent (env.getInstantiationType e.actual formalType) }).reasonCode,
          some e.formalIdx⟩) ∧
    (∀ (env : InstEnv) (call : CallInfo) (st : InstState) (e : FAEntry) (f : InstFail),
      entryDecision env call e (formalTypeOf env st e) = Except.error f →
      processEntry env call st e = Except.error f) ∧
    (∀ (env : InstEnv) (sig : Sig) (call : CallInfo) (pre post : List FAEntry)
        (e : FAEntry) (st : InstState) (f : InstFail),
      env.faMap sig.sigId call = some (pre ++ e :: post) →
      processEntries env call {} pre = Except.ok st →
      processEntry env call st e = Except.error f →
      instantiateSignature env sig call =
        ApplicabilityResult.failure sig.sigId f.reason f.formalIdx) := by
  refine ⟨?_, ?_, ?_⟩
  · intro env call e formalType hdef hpass hinst hconv hfail
    have hcp : (!((env.canPass e.actual formalType).converts) &&
        !((env.canPass e.actual formalType).promotes)) = false := by
      rcases hconv with h | h <;> simp [h]
    simp [entryDecision, hdef, hpass, hinst, hcp, hfail]
  · intro env call st e f h
    simp only [processEntry]
    rw [h]
  · intro env sig call pre post e st f hfa hpre hpe
    have hsplit : processEntries env call ({} : InstState) (pre ++ e :: post) =
        Except.error f := by
      rw [processEntries_append env call pre (e :: post) {}]
      rw [hpre]
      simp only [processEntries]
      rw [hpe]
    simp [instantiateSignature, hfa, hsplit]

/-- Witness for C7: the `shared Child` actual instantiating
`ref x: shared Parent` is rejected because the re-check of the
instantiation type under the resolved `ref` intent fails. -/
theorem instantiateSignature_intent_recheck_witness :
    instantiateSignature c7Env c7Sig c7Call =
      ApplicabilityResult.failure 3 (FailReason.failCannotPass 7) (some 0) := by
  have h1 := instantiateSignature_intent_recheck.1 c7Env c7Call c7Entry
    (formalTypeOf c7Env {} c7Entry) (by decide) (by decide) (by decide)
    (Or.inl (by decide)) (by decide)
  have h2 := instantiateSignature_intent_recheck.2.1 c7Env c7Call {} c7Entry _ h1
  have h3 := instantiateSignature_intent_recheck.2.2 c7Env c7Sig c7Call [] []
    c7Entry {} _ rfl rfl h2
  exact h3

/-- C6 (code bug): `filterCandidatesInstantiating` lacks an `else` between
the success push and the rejected push, so when the caller opts in to
rejection collection a successfully instantiated candidate is recorded in
the rejected vector as well (here the instantiation succeeds with the
candidate itself and that success lands in both vectors). -/
theorem filterCandidatesInstantiating_records_success_as_rejected :
    instantiateSignature c6Env c6Sig c6Call = ApplicabilityResult.success c6Sig ∧
    filterCandidatesInstantiating c6Env [c6Sig] c6Call true =
      ([c6Sig], [ApplicabilityResult.success c6Sig]) := by
  exact ⟨by decide, by decide⟩

/-- C9 (counterexample): a call that resolves as written is nevertheless
resolved as a method on the implicit receiver: the method-synthesized call
is attempted first and takes precedence. -/
theorem resolveCallInMethod_method_precedence_counterexample :
    (c9Resolve c9Ci).foundCandidates = true ∧
    resolveCallInMethod c9Resolve c9Ci c9Recv ≠ c9Resolve c9Ci ∧
    resolveCallInMethod c9Resolve c9Ci c9Recv =
      c9Resolve (CallInfo.createWithReceiver c9Ci c9Recv) := by
  refine ⟨rfl, by decide, by decide⟩

/-- C9 (amended): for an eligible non-method, non-operator call the driver
first resolves the call synthesized as a method on the implicit receiver;
if that finds candidates its result is returned (taking precedence over
the as-written interpretation), otherwise — in particular whenever the
call would fail as written — the call is resolved as written; ineligible
calls are always resolved as written. -/
theorem resolveCallInMethod_behavior
    (resolveCallO : CallInfo → CallResult) (ci : CallInfo) (recv : QT) :
    (shouldAttemptImplicitReceiver ci recv = true →
      ((resolveCallO (CallInfo.createWithReceiver ci recv)).foundCandidates = true →
        resolveCallInMethod resolveCallO ci recv =
          resolveCallO (CallInfo.createWithReceiver ci recv)) ∧
      ((resolveCallO (CallInfo.createWithReceiver ci recv)).foundCandidates = false →
        resolveCallInMethod resolveCallO ci recv = resolveCallO ci)) ∧
    (shouldAttemptImplicitReceiver ci recv = false →
      resolveCallInMethod resolveCallO ci recv = resolveCallO ci) := by
  refine ⟨fun h => ⟨fun hf => ?_, fun hf => ?_⟩, fun h => ?_⟩
  · simp [resolveCallInMethod, h, hf]
  · simp [resolveCallInMethod, h, hf]
  · simp [resolveCallInMethod, h]

/-- Witness for the amended C9 theorem: when the method attempt finds no
candidates, the call is resolved as written. -/
theorem resolveCallInMethod_behavior_witness :
    resolveCallInMethod c9ResolveB c9Ci c9Recv = c9ResolveB c9Ci :=
  ((resolveCallInMethod_behavior c9ResolveB c9Ci c9Recv).1 (by decide)).2 (by decide)

/-- The POI walk stops as soon as any candidate has been found. -/
theorem gatherPoiLoop_stop (g : GatherEnv) (ci : CallInfo) (rej : Bool) :
    ∀ (k : Nat) (scopes : List Nat) (cands : List Sig)
      (r : List ApplicabilityResult) (c : List Source), cands ≠ [] →
      gatherPoiLoop g ci rej k scopes cands r c = (cands, r, c) := by
  intro k scopes cands r c hne
  cases scopes with
  | nil => rfl
  | cons s rest =>
    cases cands with
    | nil => exact absurd rfl hne
    | cons a l => rfl

/-- Every element the POI walk adds to the consulted trace is a POI
source. -/
theorem gatherPoiLoop_consulted_sources (g : GatherEnv) (ci : CallInfo)
    (rej : Bool) :
    ∀ (scopes : List Nat) (k : Nat) (cands : List Sig)
      (r : List ApplicabilityResult) (c : List Source) (x : Source),
      x ∈ (gatherPoiLoop g ci rej k scopes cands r c).2.2 →
      x ∈ c ∨ ∃ k', x = Source.srcPoi k' := by
  intro scopes
  induction scopes with
  | nil => intro k cands r c x hx; exact Or.inl hx
  | cons s rest ih =>
    intro k cands r c x hx
    cases cands with
    | cons a l => exact Or.inl hx
    | nil =>
      simp only [gatherPoiLoop, List.isEmpty_nil, Bool.not_true,
        Bool.false_eq_true, if_false] at hx
      rcases ih (k + 1) _ _ _ x hx with hmem | hsrc
      · rcases List.mem_append.mp hmem with h1 | h2
        · exact Or.inl h1
        · exact Or.inr ⟨k, by simpa using h2⟩
      · exact Or.inr hsrc

/-- C5 (counterexample): the search does not stop as soon as a non-empty
candidate set is produced: with the compiler-generated source yielding a
candidate, the lexical scope is searched nevertheless and its candidate is
also gathered. -/
theorem gather_does_not_stop_after_compilerGenerated :
    considerCompilerGeneratedCandidates c5G.instEnv c5G.cg c5Ci = [c5SigA] ∧
    (gatherAndFilterCandidates c5G c5Ci false).candidates = [c5SigA, c5SigB] ∧
    Source.srcLexical ∈ (gatherAndFilterCandidates c5G c5Ci false).consulted := by
  refine ⟨by decide, by decide, by decide⟩

/-- C5 (amended): candidate gathering always searches both the
compiler-generated source and the lexical scope; when these produce any
candidate the result is exactly the lexical-stage set and neither the POI
chain nor forwarding is consulted; each step of the POI walk stops as soon
as any candidate has been found; and forwarding is consulted precisely
when everything earlier came up empty, the call is a method call with a
receiver whose type uses forwarding, and the call is not inside a
forwarding clause. -/
theorem gatherAndFilterCandidates_order (g : GatherEnv) (ci : CallInfo)
    (rej : Bool) :
    (Source.srcCompilerGenerated ∈ (gatherAndFilterCandidates g ci rej).consulted ∧
      Source.srcLexical ∈ (gatherAndFilterCandidates g ci rej).consulted) ∧
    ((gatherStageLexical g ci rej).1 ≠ [] →
      gatherAndFilterCandidates g ci rej =
        ⟨(gatherStageLexical g ci rej).1, (gatherStageLexical g ci rej).2,
          [Source.srcCompilerGenerated, Source.srcLexical]⟩) ∧
    (∀ (k : Nat) (scopes : List Nat) (cands : List Sig)
        (r : List ApplicabilityResult) (c : List Source), cands ≠ [] →
        gatherPoiLoop g ci rej k scopes cands r c = (cands, r, c)) ∧
    (Source.srcForwarding ∈ (gatherAndFilterCandidates g ci rej).consulted ↔
      forwardingConsultCond g ci (gatherStagePoi g ci rej).1 = true) := by
  refine ⟨?_, ?_, gatherPoiLoop_stop g ci rej, ?_⟩
  · constructor <;>
      (unfold gatherAndFilterCandidates;
        cases hc : forwardingConsultCond g ci (gatherStagePoi g ci rej).1 <;>
          simp [hc])
  · intro hne
    have hpoi : gatherStagePoi g ci rej =
        ((gatherStageLexical g ci rej).1, (gatherStageLexical g ci rej).2, []) := by
      unfold gatherStagePoi
      exact gatherPoiLoop_stop g ci rej 0 g.poiScopes _ _ _ hne
    have hcond : forwardingConsultCond g ci (gatherStagePoi g ci rej).1 = false := by
      rw [hpoi]
      cases hc : (gatherStageLexical g ci rej).1 with
      | nil => exact absurd hc hne
      | cons a l => simp [forwardingConsultCond, hc]
    unfold gatherAndFilterCandidates
    rw [hpoi] at hcond
    simp [hcond, hpoi]
  · cases hc : forwardingConsultCond g ci (gatherStagePoi g ci rej).1 with
    | true =>
      unfold gatherAndFilterCandidates
      simp [hc]
    | false =>
      constructor
      · intro hx
        have hx' : Source.srcForwarding ∈
            (gatherPoiLoop g ci rej 0 g.poiScopes (gatherStageLexical g ci rej).1
              (gatherStageLexical g ci rej).2 []).2.2 := by
          have hx0 : Source.srcForwarding ∈ (gatherStagePoi g ci rej).2.2 := by
            unfold gatherAndFilterCandidates at hx
            simpa [hc] using hx
          simpa [gatherStagePoi] using hx0
        exfalso
        rcases gatherPoiLoop_consulted_sources g ci rej g.poiScopes 0 _ _ _ _ hx' with
          h3 | ⟨k', h3⟩
        · simp at h3
        · exact absurd h3 (by simp)
      · intro hx
        exact absurd hx (by simp)

/-- Witness for the amended C5 theorem: with compiler-generated and
lexical candidates present, the gather returns exactly those and consults
neither the POI chain nor forwarding. -/
theorem gatherAndFilterCandidates_order_witness :
    gatherAndFilterCandidates c5G c5Ci false =
      ⟨(gatherStageLexical c5G c5Ci false).1, (gatherStageLexical c5G c5Ci false).2,
        [Source.srcCompilerGenerated, Source.srcLexical]⟩ :=
  (gatherAndFilterCandidates_order c5G c5Ci false).2.1 (by decide)

/-- A successful initial applicability check returns the checked signature
itself, whose where-clause result is not false. -/
theorem isInitialTypedSignatureApplicable_success_where
    (env : InstEnv) (tfs : Sig) (fa : Bool) (entries : List FAEntry)
    (vok : Bool) (ci : CallInfo) (s : Sig)
    (h : isInitialTypedSignatureApplicable env tfs fa entries vok ci =
      ApplicabilityResult.success s) :
    s = tfs ∧ s.whereResult ≠ WhereR.wFalse := by
  unfold isInitialTypedSignatureApplicable at h
  split at h
  · exact absurd h (by simp)
  · split at h
    · exact absurd h (by simp)
    · split at h
      · exact absurd h (by simp)
      · split at h
        · exact absurd h (by simp)
        · rename_i hw
          injection h with h'
          subst h'
          exact ⟨rfl, by simpa using hw⟩

/-- A successful instantiating applicability check yields a candidate
whose where-clause result is not false. -/
theorem doIsCandidateApplicableInstantiating_success_where
    (env : InstEnv) (ts : Sig) (call : CallInfo) (c : Sig)
    (h : doIsCandidateApplicableInstantiating env ts call =
      ApplicabilityResult.success c) :
    c.whereResult ≠ WhereR.wFalse := by
  unfold doIsCandidateApplicableInstantiating at h
  split at h
  · exact absurd h (by simp)
  · split at h
    · exact absurd h (by simp)
    · rename_i hw
      injection h with h'
      subst h'
      simpa using hw

/-- A successful initial candidate check yields a signature whose
where-clause result is not false (type constructors and field accessors
carry `WHERE_NONE`; functions pass through the initial check). -/
theorem doIsCandidateApplicableInitial_success_where
    (env : InstEnv) (c : InitCand) (ci : CallInfo) (s : Sig)
    (h : doIsCandidateApplicableInitial env c ci = ApplicabilityResult.success s) :
    s.whereResult ≠ WhereR.wFalse := by
  unfold doIsCandidateApplicableInitial at h
  split at h
  · exact absurd h (by simp)
  · split at h
    · injection h with h'
      subst h'
      simp [typeConstructorInitialSig]
    · exact absurd h (by simp)
    · split at h
      · injection h with h'
        subst h'
        simp [fieldAccessorSig]
      · exact absurd h (by simp)
    · split at h
      · exact absurd h (by simp)
      · exact (isInitialTypedSignatureApplicable_success_where env c.tfs
          c.faMapValid c.entries c.varargInitOk ci s h).2

/-- Every candidate produced by the initial filter has a where-clause
result other than false. -/
theorem mem_filterCandidatesInitial_where (env : InstEnv) (call : CallInfo)
    (rej : Bool) :
    ∀ (lst : List InitCand) (s : Sig),
      s ∈ (filterCandidatesInitialGatherRejected env lst call rej).1 →
      s.whereResult ≠ WhereR.wFalse := by
  intro lst
  induction lst with
  | nil =>
    intro s hs
    simp [filterCandidatesInitialGatherRejected] at hs
  | cons c rest ih =>
    intro s hs
    simp only [filterCandidatesInitialGatherRejected] at hs
    cases hd : doIsCandidateApplicableInitial env c call with
    | success cand =>
      rw [hd] at hs
      simp only [List.mem_cons] at hs
      rcases hs with rfl | hmem
      · exact doIsCandidateApplicableInitial_success_where env c call s hd
      · exact ih s hmem
    | failure a b fi =>
      rw [hd] at hs
      cases hr : rej with
      | true =>
        subst hr
        simp only [if_true] at hs
        exact ih s hs
      | false =>
        subst hr
        simp only [Bool.false_eq_true, if_false] at hs
        exact ih s hs

/-- The instantiating filter preserves the where gate: if every input
candidate has a non-false where result, so does every output
candidate. -/
theorem mem_filterCandidatesInstantiating_where (env : InstEnv)
    (call : CallInfo) (rej : Bool) :
    ∀ (lst : List Sig),
      (∀ t ∈ lst, t.whereResult ≠ WhereR.wFalse) →
      ∀ s ∈ (filterCandidatesInstantiating env lst call rej).1,
        s.whereResult ≠ WhereR.wFalse := by
  intro lst
  induction lst with
  | nil =>
    intro _ s hs
    simp [filterCandidatesInstantiating] at hs
  | cons t rest ih =>
    intro hin s hs
    have hrest := ih fun u hu => hin u (List.mem_cons_of_mem t hu)
    simp only [filterCandidatesInstantiating] at hs
    cases hni : t.needsInstantiation with
    | true =>
      rw [hni] at hs
      simp only [if_true] at hs
      cases hd : doIsCandidateApplicableInstantiating env t call with
      | success cand =>
        rw [hd] at hs
        simp only [List.mem_cons] at hs
        rcases hs with rfl | hmem
        · exact doIsCandidateApplicableInstantiating_success_where env t call s hd
        · exact hrest s hmem
      | failure a b fi =>
        rw [hd] at hs
        exact hrest s hs
    | false =>
      rw [hni] at hs
      simp only [Bool.false_eq_true, if_false, List.mem_cons] at hs
      rcases hs with rfl | hmem
      · exact hin s (List.mem_cons_self _ _)
      · exact hrest s hmem

/-- Every compiler-generated candidate has a non-false where result. -/
theorem mem_considerCompilerGeneratedCandidates_where (env : InstEnv)
    (cg : CallInfo → CgInfo) (ci : CallInfo) :
    ∀ s ∈ considerCompilerGeneratedCandidates env cg ci,
      s.whereResult ≠ WhereR.wFalse := by
  intro s hs
  simp only [considerCompilerGeneratedCandidates] at hs
  split at hs
  · simp at hs
  · split at hs
    · simp at hs
    · split at hs
      · simp at hs
      · split at hs
        · rename_i hini _
          simp only [List.mem_singleton] at hs
          subst hs
          simp only [Bool.not_eq_true] at hini
          cases hd : isInitialTypedSignatureApplicable env (cg ci).tfs
              (cg ci).faMapValid (cg ci).entries (cg ci).varargInitOk ci with
          | success s' =>
            have := isInitialTypedSignatureApplicable_success_where env (cg ci).tfs
              (cg ci).faMapValid (cg ci).entries (cg ci).varargInitOk ci s' hd
            rw [← this.1]
            exact this.2
          | failure a b fi =>
            rw [hd] at hini
            simp [ApplicabilityResult.isSuccess] at hini
        · split at hs
          · rename_i hd
            simp only [List.mem_singleton] at hs
            subst hs
            exact doIsCandidateApplicableInstantiating_success_where env
              (cg ci).tfs ci _ hd
          · simp at hs

/-- The compiler-generated stage over forwarded calls preserves the where
gate. -/
theorem mem_cgOverCalls_where (env : InstEnv) (cg : CallInfo → CgInfo) :
    ∀ (l : List CallInfo) (s : Sig), s ∈ cgOverCalls env cg l →
      s.whereResult ≠ WhereR.wFalse := by
  intro l
  induction l with
  | nil => intro s hs; simp [cgOverCalls] at hs
  | cons fci rest ih =>
    intro s hs
    simp only [cgOverCalls] at hs
    rcases List.mem_append.mp hs with h1 | h2
    · exact mem_considerCompilerGeneratedCandidates_where env cg fci s h1
    · exact ih s h2

/-- The lookup-and-filter stage over forwarded calls preserves the where
gate. -/
theorem mem_lexOverCalls_where (g : GatherEnv) (scope : Nat) :
    ∀ (l : List CallInfo) (s : Sig), s ∈ lexOverCalls g scope l →
      s.whereResult ≠ WhereR.wFalse := by
  intro l
  induction l with
  | nil => intro s hs; simp [lexOverCalls] at hs
  | cons fci rest ih =>
    intro s hs
    simp only [lexOverCalls] at hs
    rcases List.mem_append.mp hs with h1 | h2
    · exact mem_filterCandidatesInstantiating_where g.instEnv fci false _
        (fun t ht => mem_filterCandidatesInitial_where g.instEnv fci false _ t ht)
        s h1
    · exact ih s h2

/-- The POI stage of the forwarding gather preserves the where gate. -/
theorem mem_gatherForwardingPoi_where (g : GatherEnv) (fcis : List CallInfo)
    (nonPoi : List Sig) :
    ∀ (scopes : List Nat) (s : Sig),
      s ∈ gatherForwardingPoi g fcis nonPoi scopes →
      s.whereResult ≠ WhereR.wFalse := by
  intro scopes
  induction scopes with
  | nil => intro s hs; simp [gatherForwardingPoi] at hs
  | cons scope rest ih =>
    intro s hs
    simp only [gatherForwardingPoi] at hs
    split at hs
    · simp at hs
    · split at hs
      · exact ih s hs
      · exact mem_lexOverCalls_where g scope fcis s hs

/-- The forwarding-to-forwarding fold preserves the where gate. -/
theorem fwdRecStep_foldl_where (g : GatherEnv)
    (recFn : CallInfo → List Sig × List Sig)
    (hrec : ∀ fci : CallInfo,
      (∀ s ∈ (recFn fci).1, s.whereResult ≠ WhereR.wFalse) ∧
      (∀ s ∈ (recFn fci).2, s.whereResult ≠ WhereR.wFalse)) :
    ∀ (l : List CallInfo) (acc : List Sig × List Sig),
      (∀ s ∈ acc.1, s.whereResult ≠ WhereR.wFalse) →
      (∀ s ∈ acc.2, s.whereResult ≠ WhereR.wFalse) →
      (∀ s ∈ (l.foldl (fwdRecStep g recFn) acc).1, s.whereResult ≠ WhereR.wFalse) ∧
      (∀ s ∈ (l.foldl (fwdRecStep g recFn) acc).2, s.whereResult ≠ WhereR.wFalse) := by
  intro l
  induction l with
  | nil => intro acc h1 h2; exact ⟨h1, h2⟩
  | cons fci rest ih =>
    intro acc h1 h2
    rw [List.foldl_cons]
    by_cases hc : (fci.isMethodCall && decide (1 ≤ fci.actuals.length) &&
        g.typeUsesForwarding (fci.actuals.headD {})) = true
    · have hstep : fwdRecStep g recFn acc fci =
          (acc.1 ++ (recFn fci).1, acc.2 ++ (recFn fci).2) := by
        simp only [fwdRecStep, hc, if_true]
      rw [hstep]
      apply ih
      · intro s hs
        rcases List.mem_append.mp hs with h | h
        · exact h1 s h
        · exact (hrec fci).1 s h
      · intro s hs
        rcases List.mem_append.mp hs with h | h
        · exact h2 s h
        · exact (hrec fci).2 s h
    · have hc' : (fci.isMethodCall && decide (1 ≤ fci.actuals.length) &&
          g.typeUsesForwarding (fci.actuals.headD {})) = false := by
        simpa using hc
      have hstep : fwdRecStep g recFn acc fci = acc := by
        simp only [fwdRecStep, hc', Bool.false_eq_true, if_false]
      rw [hstep]
      exact ih acc h1 h2

/-- Every candidate produced by the forwarding gather has a non-false
where result. -/
theorem mem_gatherForwarding_where (g : GatherEnv) :
    ∀ (fuel : Nat) (ci : CallInfo),
      (∀ s ∈ (gatherForwarding g fuel ci).1, s.whereResult ≠ WhereR.wFalse) ∧
      (∀ s ∈ (gatherForwarding g fuel ci).2, s.whereResult ≠ WhereR.wFalse) := by
  intro fuel
  induction fuel with
  | zero =>
    intro ci
    constructor <;> (intro s hs; simp [gatherForwarding] at hs)
  | succ f ih =>
    intro ci
    set tgs := (if g.cycleFound ci then [] else g.forwardTypes ci) with htgs
    set fcis := tgs.map (fun ft =>
      { ci with calledType := ft, actuals := ft :: ci.actuals.tail }) with hfcis
    set nonPoi1 := cgOverCalls g.instEnv g.cg fcis ++
      lexOverCalls g g.inScope fcis with hnp
    set poi1 := gatherForwardingPoi g fcis nonPoi1 g.poiScopes with hpo
    have heq : gatherForwarding g (f + 1) ci =
        if tgs.isEmpty then ([], [])
        else if nonPoi1.isEmpty && poi1.isEmpty then
          fcis.foldl (fwdRecStep g (fun fci => gatherForwarding g f fci))
            (nonPoi1, poi1)
        else (nonPoi1, poi1) := rfl
    rw [heq]
    by_cases hT : tgs.isEmpty = true
    · rw [if_pos hT]
      constructor <;> (intro s hs; simp at hs)
    · rw [if_neg hT]
      have hbase1 : ∀ s ∈ nonPoi1, s.whereResult ≠ WhereR.wFalse := by
        intro s hs
        rw [hnp] at hs
        rcases List.mem_append.mp hs with h | h
        · exact mem_cgOverCalls_where g.instEnv g.cg fcis s h
        · exact mem_lexOverCalls_where g g.inScope fcis s h
      have hbase2 : ∀ s ∈ poi1, s.whereResult ≠ WhereR.wFalse := by
        intro s hs
        rw [hpo] at hs
        exact mem_gatherForwardingPoi_where g fcis nonPoi1 g.poiScopes s hs
      by_cases hE : (nonPoi1.isEmpty && poi1.isEmpty) = true
      · rw [if_pos hE]
        exact fwdRecStep_foldl_where g (fun fci => gatherForwarding g f fci)
          (fun fci => ih fci) fcis (nonPoi1, poi1) hbase1 hbase2
      · rw [if_neg hE]
        exact ⟨hbase1, hbase2⟩

/-- The lexical stage of the main gather satisfies the where gate. -/
theorem mem_gatherStageLexical_where (g : GatherEnv) (ci : CallInfo)
    (rej : Bool) :
    ∀ s ∈ (gatherStageLexical g ci rej).1, s.whereResult ≠ WhereR.wFalse := by
  intro s hs
  simp only [gatherStageLexical] at hs
  rcases List.mem_append.mp hs with h | h
  · exact mem_considerCompilerGeneratedCandidates_where g.instEnv g.cg ci s h
  · exact mem_filterCandidatesInstantiating_where g.instEnv ci rej _
      (fun t ht => mem_filterCandidatesInitial_where g.instEnv ci rej _ t ht) s h

/-- The POI stage of the main gather preserves the where gate. -/
theorem mem_gatherPoiLoop_where (g : GatherEnv) (ci : CallInfo) (rej : Bool) :
    ∀ (scopes : List Nat) (k : Nat) (cands : List Sig)
      (r : List ApplicabilityResult) (c : List Source),
      (∀ t ∈ cands, t.whereResult ≠ WhereR.wFalse) →
      ∀ s ∈ (gatherPoiLoop g ci rej k scopes cands r c).1,
        s.whereResult ≠ WhereR.wFalse := by
  intro scopes
  induction scopes with
  | nil => intro k cands r c hin s hs; exact hin s hs
  | cons scope rest ih =>
    intro k cands r c hin s hs
    cases cands with
    | cons a l =>
      rw [gatherPoiLoop_stop g ci rej k (scope :: rest) (a :: l) r c
        (by simp)] at hs
      exact hin s hs
    | nil =>
      simp only [gatherPoiLoop, List.isEmpty_nil, Bool.not_true,
        Bool.false_eq_true, if_false] at hs
      apply ih (k + 1) _ _ _ _ s hs
      intro t ht
      rcases List.mem_append.mp ht with h | h
      · simp at h
      · exact mem_filterCandidatesInstantiating_where g.instEnv ci rej _
          (fun u hu => mem_filterCandidatesInitial_where g.instEnv ci rej _ u hu)
          t h

/-- C1: the where-clause gate.  A candidate whose where-clause result is
already false fails the initial applicability check; when instantiation
substitutes and the where clause evaluates to `param false`, the
instantiation attempt is rejected with a where-clause failure; and every
candidate gathered for disambiguation (which selects among them) has a
where result other than false, so a candidate with `where = false` is
never among the selected most-specific candidates. -/
theorem whereFalse_never_selected :
    (∀ (env : InstEnv) (tfs : Sig) (fa : Bool) (entries : List FAEntry)
        (vok : Bool) (ci : CallInfo),
      tfs.whereResult = WhereR.wFalse →
      (isInitialTypedSignatureApplicable env tfs fa entries vok ci).isSuccess = false) ∧
    (∀ (env : InstEnv) (sig : Sig) (call : CallInfo) (entries : List FAEntry)
        (st0 : InstState) (wqt : QT),
      env.faMap sig.sigId call = some entries →
      processEntries env call {} entries = Except.ok st0 →
      (finalizeVarArgs env st0).substitutions ≠ [] →
      sig.isFn = true →
      sig.isInitFn = false →
      env.varArgCountOk (finalizeVarArgs env st0).substitutions = true →
      env.whereEval (finalizeVarArgs env st0).substitutions = some wqt →
      wqt.tyIsBool = true → wqt.kind = QKind.paramK → wqt.paramB = some false →
      doIsCandidateApplicableInstantiating env sig call =
        ApplicabilityResult.failure sig.sigId FailReason.failWhereClause none) ∧
    (∀ (g : GatherEnv) (ci : CallInfo) (rej : Bool),
      ∀ s ∈ (gatherAndFilterCandidates g ci rej).candidates,
        s.whereResult ≠ WhereR.wFalse) := by
  refine ⟨?_, ?_, ?_⟩
  · intro env tfs fa entries vok ci h
    unfold isInitialTypedSignatureApplicable
    split
    · rfl
    · split
      · rfl
      · split
        · rfl
        · split
          · rfl
          · rename_i hw
            exact absurd (by simp [h]) hw
  · intro env sig call entries st0 wqt hfa hproc hne hfn hinit hva hwe hb hk hpb
    have hie : (finalizeVarArgs env st0).substitutions.isEmpty = false := by
      cases hc : (finalizeVarArgs env st0).substitutions with
      | nil => exact absurd hc hne
      | cons a l => rfl
    have hwr : ∀ n : Bool, (whereClauseResultM
        (env.whereEval (finalizeVarArgs env st0).substitutions) n).1 =
        WhereR.wFalse := by
      intro n
      rw [hwe]
      simp [whereClauseResultM, hb, hk, hpb]
    have hinst : instantiateSignature env sig call =
        ApplicabilityResult.success
          { sig with
            formalTypes := env.finalFormalTypes (finalizeVarArgs env st0).substitutions,
            whereResult := (whereClauseResultM
              (env.whereEval (finalizeVarArgs env st0).substitutions)
              (anyFormalNeedsInstantiation env.genericity
                (env.finalFormalTypes (finalizeVarArgs env st0).substitutions)
                sig.formalDeclIds (some (finalizeVarArgs env st0).substitutions))).1,
            needsInstantiation := anyFormalNeedsInstantiation env.genericity
              (env.finalFormalTypes (finalizeVarArgs env st0).substitutions)
              sig.formalDeclIds (some (finalizeVarArgs env st0).substitutions),
            instantiatedFromId := some sig.sigId } := by
      simp [instantiateSignature, hfa, hproc, hie, hfn, hva, hinit]
    rw [doIsCandidateApplicableInstantiating, hinst]
    simp [hwr]
  · intro g ci rej s hs
    have hpoi : ∀ t ∈ (gatherStagePoi g ci rej).1, t.whereResult ≠ WhereR.wFalse := by
      intro t ht
      simp only [gatherStagePoi] at ht
      exact mem_gatherPoiLoop_where g ci rej g.poiScopes 0 _ _ _
        (mem_gatherStageLexical_where g ci rej) t ht
    unfold gatherAndFilterCandidates at hs
    cases hc : forwardingConsultCond g ci (gatherStagePoi g ci rej).1 with
    | false =>
      simp only [hc, Bool.false_eq_true, if_false] at hs
      exact hpoi s hs
    | true =>
      simp only [hc, if_true] at hs
      rcases List.mem_append.mp hs with h | h
      · rcases List.mem_append.mp h with h1 | h2
        · exact hpoi s h1
        · exact (mem_gatherForwarding_where g g.fwdFuel ci).1 s h2
      · exact (mem_gatherForwarding_where g g.fwdFuel ci).2 s h

/-- Witness for C1: a where-false candidate fails the initial check; a
generic function whose substituted where clause evaluates to `param
false` is rejected with a where-clause failure; and a concrete gather
yields only candidates with non-false where results. -/
theorem whereFalse_never_selected_witness :
    (isInitialTypedSignatureApplicable baseInstEnv c1TfsFalse true [] true
      c1Ci).isSuccess = false ∧
    doIsCandidateApplicableInstantiating c1Env c1Sig c1Call =
      ApplicabilityResult.failure 32 FailReason.failWhereClause none ∧
    ((gatherAndFilterCandidates c5G c5Ci false).candidates.all
      fun s => !(s.whereResult == WhereR.wFalse)) = true := by
  refine ⟨?_, ?_, ?_⟩
  · exact whereFalse_never_selected.1 baseInstEnv c1TfsFalse true [] true c1Ci rfl
  · exact whereFalse_never_selected.2.1 c1Env c1Sig c1Call
      [{ formalIdx := 0, declId := 14, actual := qtGenericActual }]
      { substitutions := [(14, qtGenericActual)], formalsInstantiated := [0],
        formalIdx := 1 }
      qtWhereFalse rfl rfl (by decide) rfl rfl rfl rfl rfl rfl rfl
  · rw [List.all_eq_true]
    intro s hsmem
    have := whereFalse_never_selected.2.2 c5G c5Ci false s hsmem
    simpa using this

end ChapelRes
